import Mathlib

/-!
Shallow embedding of the WebSocket connection registry
(`backend/app/services/websocket_manager.py`, class `WebSocketManager`) and
verification of the specification's claims about it.

Modelling choices:
* a connection handle (`WebSocket`) is a `Nat`;
* a Python `list` is a Lean `List` (ordered, duplicates allowed;
  `list.remove` removes the first occurrence, as `List.erase` does);
* a Python `dict` is an insertion-ordered association list with unique keys
  (`dictLookup` / `dictInsert` / `dictDelete` below mirror `d[k]`,
  `d[k] = v` and `del d[k]`);
* a Python `set` is a `Finset` (`set.add` is `insert`, `set.discard` is
  `Finset.erase`);
* timestamps (`datetime.utcnow()` and `.timestamp()`) are `Nat` seconds,
  supplied by the caller as an explicit `now` argument;
* `websocket.send_text` is network I/O that can raise; the environment is a
  function `fails : Nat → Bool` telling which connections' sends raise.
  Each operation returns the new state together with the list of
  `(connection, message)` pairs successfully handed to the transport.
-/

/-- Lookup in a Python-style dict rendered as an association list
(first binding wins; dicts built by the operations below have unique keys). -/
def dictLookup {α β : Type} [DecidableEq α] : List (α × β) → α → Option β
  | [], _ => none
  | (k', v) :: rest, k => if k' = k then some v else dictLookup rest k

/-- `d[k] = v` on a Python dict: update the existing binding in place,
else append a new binding at the end (Python dicts are insertion-ordered). -/
def dictInsert {α β : Type} [DecidableEq α] : List (α × β) → α → β → List (α × β)
  | [], k, v => [(k, v)]
  | (k', v') :: rest, k, v =>
    if k' = k then (k, v) :: rest else (k', v') :: dictInsert rest k v

/-- `del d[k]` on a Python dict: remove the (first) binding for `k`. -/
def dictDelete {α β : Type} [DecidableEq α] : List (α × β) → α → List (α × β)
  | [], _ => []
  | (k', v') :: rest, k => if k' = k then rest else (k', v') :: dictDelete rest k

/-- The per-connection metadata record stored in `connection_metadata`
(keys `connected_at`, `subscriptions`, `last_ping`). -/
structure Meta where
  connected_at : Nat
  subs : Finset String
  last_ping : Nat
deriving DecidableEq

/-- The mutable state of a `WebSocketManager` instance:
`active_connections` (a list), `subscriptions` (dict channel → set of
connections) and `connection_metadata` (dict connection → metadata). -/
structure WSState where
  active_connections : List Nat
  subscriptions : List (String × Finset Nat)
  connection_metadata : List (Nat × Meta)
deriving DecidableEq

/-- The state `__init__` builds: everything empty. -/
def initialState : WSState := ⟨[], [], []⟩

/-- The messages the manager writes to the transport.  Timestamp fields and
human-readable `message` strings are immaterial to the claims and omitted;
`payload` carries the serialized application payload of a broadcast. -/
inductive Msg where
  | connectionEstablished
  | subscriptionConfirmed (channel : String)
  | unsubscriptionConfirmed (channel : String)
  | payload (data : String)
deriving DecidableEq

/-- `disconnect(websocket)`: remove from `active_connections` if present
(first occurrence, as `list.remove`); if a metadata record exists, for each
channel in its subscription set discard the connection from that channel's
subscriber set and delete the channel entry if it became empty; finally
delete the metadata record. -/
def removeConnFromChannels (chans : Finset String) (ws : Nat)
    (d : List (String × Finset Nat)) : List (String × Finset Nat) :=
  (d.map (fun e => if e.1 ∈ chans then (e.1, e.2.erase ws) else e)).filter
    (fun e => ¬(e.1 ∈ chans ∧ e.2 = ∅))

def disconnect (s : WSState) (ws : Nat) : WSState :=
  let active :=
    if ws ∈ s.active_connections then s.active_connections.erase ws
    else s.active_connections
  match dictLookup s.connection_metadata ws with
  | some m =>
    { active_connections := active
      subscriptions := removeConnFromChannels m.subs ws s.subscriptions
      connection_metadata := dictDelete s.connection_metadata ws }
  | none => { s with active_connections := active }

/-- `send_personal_message(websocket, message)`: try to send; on a transport
error the exception is swallowed and the connection is run through
`disconnect`. -/
def send_personal_message (fails : Nat → Bool) (s : WSState) (ws : Nat)
    (m : Msg) : WSState × List (Nat × Msg) :=
  if fails ws then (disconnect s ws, []) else (s, [(ws, m)])

/-- The state mutations of `connect(websocket)`: append to
`active_connections`, store a fresh metadata record (empty subscription set,
both timestamps `now`). -/
def connectState (s : WSState) (ws : Nat) (now : Nat) : WSState :=
  { active_connections := s.active_connections ++ [ws]
    subscriptions := s.subscriptions
    connection_metadata :=
      dictInsert s.connection_metadata ws ⟨now, ∅, now⟩ }

/-- `connect(websocket)`: state mutations, then the welcome message via
`send_personal_message` (the transport `accept()` happens upstream). -/
def connect (fails : Nat → Bool) (s : WSState) (ws : Nat) (now : Nat) :
    WSState × List (Nat × Msg) :=
  send_personal_message fails (connectState s ws now) ws Msg.connectionEstablished

/-- The state mutations of `subscribe(websocket, channel)`: create the
channel entry (empty) if absent, add the connection to the channel's set,
and—only if a metadata record exists—add the channel to the connection's
own subscription set. -/
def subscribeState (s : WSState) (ws : Nat) (ch : String) : WSState :=
  let subs0 :=
    match dictLookup s.subscriptions ch with
    | none => dictInsert s.subscriptions ch ∅
    | some _ => s.subscriptions
  let subs1 := dictInsert subs0 ch (insert ws ((dictLookup subs0 ch).getD ∅))
  let meta1 :=
    match dictLookup s.connection_metadata ws with
    | some m => dictInsert s.connection_metadata ws { m with subs := insert ch m.subs }
    | none => s.connection_metadata
  { active_connections := s.active_connections
    subscriptions := subs1
    connection_metadata := meta1 }

/-- `subscribe(websocket, channel)`: mutations, then the confirmation
message. -/
def subscribe (fails : Nat → Bool) (s : WSState) (ws : Nat) (ch : String) :
    WSState × List (Nat × Msg) :=
  send_personal_message fails (subscribeState s ws ch) ws (Msg.subscriptionConfirmed ch)

/-- The state mutations of `unsubscribe(websocket, channel)`: if the channel
entry exists, discard the connection and delete the entry if now empty;
if a metadata record exists, discard the channel from its subscription
set. -/
def unsubscribeState (s : WSState) (ws : Nat) (ch : String) : WSState :=
  let subs1 :=
    match dictLookup s.subscriptions ch with
    | none => s.subscriptions
    | some set =>
      let set' := set.erase ws
      if set' = ∅ then dictDelete s.subscriptions ch
      else dictInsert s.subscriptions ch set'
  let meta1 :=
    match dictLookup s.connection_metadata ws with
    | some m => dictInsert s.connection_metadata ws { m with subs := m.subs.erase ch }
    | none => s.connection_metadata
  { active_connections := s.active_connections
    subscriptions := subs1
    connection_metadata := meta1 }

/-- `unsubscribe(websocket, channel)`: mutations, then the confirmation
message. -/
def unsubscribe (fails : Nat → Bool) (s : WSState) (ws : Nat) (ch : String) :
    WSState × List (Nat × Msg) :=
  send_personal_message fails (unsubscribeState s ws ch) ws (Msg.unsubscriptionConfirmed ch)

/-- `broadcast(message)`: if there are no active connections return; iterate
over `active_connections` attempting each send, collecting the failed
connections; after the pass, disconnect each failed connection. -/
def broadcast (fails : Nat → Bool) (s : WSState) (payload : String) :
    WSState × List (Nat × Msg) :=
  if s.active_connections = [] then (s, [])
  else
    let sent := (s.active_connections.filter (fun c => !fails c)).map
      (fun c => (c, Msg.payload payload))
    let disconnected := s.active_connections.filter (fun c => fails c)
    (disconnected.foldl disconnect s, sent)

/-- `broadcast_to_channel(channel, message)`: if the channel has no entry,
return; otherwise iterate over the channel's subscriber set (a Python set —
iteration order unspecified; rendered here by sorting), collecting failures,
then disconnect each failed connection. -/
def broadcast_to_channel (fails : Nat → Bool) (s : WSState) (ch : String)
    (payload : String) : WSState × List (Nat × Msg) :=
  match dictLookup s.subscriptions ch with
  | none => (s, [])
  | some set =>
    let conns := set.sort (· ≤ ·)
    let sent := (conns.filter (fun c => !fails c)).map
      (fun c => (c, Msg.payload payload))
    let disconnected := conns.filter (fun c => fails c)
    (disconnected.foldl disconnect s, sent)

/-- `cleanup_stale_connections(max_age_minutes)`: compute the cutoff
`now - max_age_minutes * 60` (truncated subtraction is equivalent here: both
a negative Python cutoff and a clamped-to-zero `Nat` cutoff make no
timestamp stale); collect every connection whose `last_ping` is strictly
older than the cutoff while iterating the metadata dict; then `disconnect`
each and attempt a transport `close()` whose errors are swallowed (no
registry effect, not modelled). -/
def cleanup_stale_connections (now : Nat) (max_age_minutes : Nat)
    (s : WSState) : WSState :=
  let cutoff := now - max_age_minutes * 60
  let stale := (s.connection_metadata.filter
    (fun e => e.2.last_ping < cutoff)).map Prod.fst
  stale.foldl disconnect s

/-- One row of the `connection_details` list of `get_connection_stats`
(`connected_at`/`last_ping` are ISO strings in Python, `Nat` here; the
Python `list(...)` of the subscription set is kept as the `Finset`). -/
structure ConnDetails where
  connected_at : Nat
  subscriptions : Finset String
  last_ping : Nat
deriving DecidableEq

/-- Return value of `get_connection_stats`. -/
structure Stats where
  total_connections : Nat
  channels : List (String × Nat)
  connection_details : List ConnDetails
deriving DecidableEq

/-- `get_connection_stats()`: pure read of the registry, translated in
state-passing style (it writes nothing, so the state component is the
input). -/
def get_connection_stats (s : WSState) : WSState × Stats :=
  (s,
    { total_connections := s.active_connections.length
      channels := s.subscriptions.map (fun e => (e.1, e.2.card))
      connection_details := s.connection_metadata.map
        (fun e => ⟨e.2.connected_at, e.2.subs, e.2.last_ping⟩) })

/-! ## Derived observations and invariants -/

/-- `c` is in channel `ch`'s subscriber set (registry-side membership). -/
def inChannelB (s : WSState) (ch : String) (c : Nat) : Bool :=
  match dictLookup s.subscriptions ch with
  | some set => c ∈ set
  | none => false

/-- `ch` is in connection `c`'s own subscription set (metadata-side
membership; `false` when `c` has no metadata record). -/
def inMetaSubsB (s : WSState) (c : Nat) (ch : String) : Bool :=
  match dictLookup s.connection_metadata c with
  | some m => ch ∈ m.subs
  | none => false

/-- Bidirectional consistency between the channel map and the per-connection
subscription sets. -/
def Consistent (s : WSState) : Prop :=
  ∀ c ch, inChannelB s ch c = true ↔ inMetaSubsB s c ch = true

/-- No channel entry holds an empty subscriber set. -/
def noEmptyChannels (s : WSState) : Prop :=
  ∀ e ∈ s.subscriptions, e.2 ≠ (∅ : Finset Nat)

/-- The structural well-formedness a `WebSocketManager` maintains at run
time: consistency, unique dict keys, no duplicate live-list entries, a
metadata record exactly for the live connections, and no empty channel
entries. -/
structure RegInv (s : WSState) : Prop where
  consistent : Consistent s
  metaNodup : (s.connection_metadata.map Prod.fst).Nodup
  subsNodup : (s.subscriptions.map Prod.fst).Nodup
  activeNodup : s.active_connections.Nodup
  activeIffMeta : ∀ c, c ∈ s.active_connections ↔ (dictLookup s.connection_metadata c).isSome
  noEmpty : noEmptyChannels s

/-- States reachable from the empty registry by sequences of the four
registry operations in which `connect` is only applied to a handle with no
current metadata record and `subscribe` only to a handle with one (the
at-most-once-connect / subscribe-after-connect calling discipline the
class's interface assumes).  The send environment may differ per call. -/
inductive Reach : WSState → Prop where
  | init : Reach initialState
  | connect (fails : Nat → Bool) (s : WSState) (ws now : Nat) :
      Reach s → dictLookup s.connection_metadata ws = none →
      Reach (connect fails s ws now).1
  | disconnect (s : WSState) (ws : Nat) :
      Reach s → Reach (disconnect s ws)
  | subscribe (fails : Nat → Bool) (s : WSState) (ws : Nat) (ch : String) :
      Reach s → (dictLookup s.connection_metadata ws).isSome = true →
      Reach (subscribe fails s ws ch).1
  | unsubscribe (fails : Nat → Bool) (s : WSState) (ws : Nat) (ch : String) :
      Reach s → Reach (unsubscribe fails s ws ch).1

/-! ## Dictionary lemmas -/

theorem dictLookup_insert_self {α β : Type} [DecidableEq α]
    (d : List (α × β)) (k : α) (v : β) :
    dictLookup (dictInsert d k v) k = some v := by
  induction d with
  | nil => simp [dictInsert, dictLookup]
  | cons e rest ih =>
    obtain ⟨a, b⟩ := e
    by_cases ha : a = k
    · simp [dictInsert, dictLookup, ha]
    · simp [dictInsert, dictLookup, ha, ih]

theorem dictLookup_insert_ne {α β : Type} [DecidableEq α]
    (d : List (α × β)) (k k' : α) (v : β) (h : k' ≠ k) :
    dictLookup (dictInsert d k v) k' = dictLookup d k' := by
  induction d with
  | nil => simp [dictInsert, dictLookup, Ne.symm h]
  | cons e rest ih =>
    obtain ⟨a, b⟩ := e
    by_cases ha : a = k
    · simp [dictInsert, dictLookup, ha, Ne.symm h]
    · simp [dictInsert, dictLookup, ha, ih]

theorem dictLookup_delete_ne {α β : Type} [DecidableEq α]
    (d : List (α × β)) (k k' : α) (h : k' ≠ k) :
    dictLookup (dictDelete d k) k' = dictLookup d k' := by
  induction d with
  | nil => simp [dictDelete]
  | cons e rest ih =>
    obtain ⟨a, b⟩ := e
    by_cases ha : a = k
    · simp [dictDelete, dictLookup, ha, Ne.symm h]
    · simp [dictDelete, dictLookup, ha, ih]

theorem dictLookup_eq_none_iff {α β : Type} [DecidableEq α]
    (d : List (α × β)) (k : α) :
    dictLookup d k = none ↔ k ∉ d.map Prod.fst := by
  induction d with
  | nil => simp [dictLookup]
  | cons e rest ih =>
    obtain ⟨a, b⟩ := e
    by_cases ha : a = k
    · simp [dictLookup, ha]
    · simp [dictLookup, ha, ih, Ne.symm ha]

theorem dictLookup_delete_self {α β : Type} [DecidableEq α]
    (d : List (α × β)) (k : α) (h : (d.map Prod.fst).Nodup) :
    dictLookup (dictDelete d k) k = none := by
  induction d with
  | nil => simp [dictDelete, dictLookup]
  | cons e rest ih =>
    obtain ⟨a, b⟩ := e
    simp only [List.map_cons, List.nodup_cons] at h
    by_cases ha : a = k
    · subst ha
      rw [dictDelete, if_pos rfl, dictLookup_eq_none_iff]
      exact h.1
    · rw [dictDelete, if_neg ha, dictLookup, if_neg ha]
      exact ih h.2

theorem dictDelete_keys_sublist {α β : Type} [DecidableEq α]
    (d : List (α × β)) (k : α) :
    ((dictDelete d k).map Prod.fst).Sublist (d.map Prod.fst) := by
  induction d with
  | nil => simp [dictDelete]
  | cons e rest ih =>
    obtain ⟨a, b⟩ := e
    by_cases ha : a = k
    · simp only [dictDelete, if_pos ha, List.map_cons]
      exact List.sublist_cons_self _ _
    · simp only [dictDelete, if_neg ha, List.map_cons]
      exact ih.cons₂ _

theorem dictInsert_keys {α β : Type} [DecidableEq α]
    (d : List (α × β)) (k : α) (v : β) :
    (dictInsert d k v).map Prod.fst =
      if k ∈ d.map Prod.fst then d.map Prod.fst else d.map Prod.fst ++ [k] := by
  induction d with
  | nil => simp [dictInsert]
  | cons e rest ih =>
    obtain ⟨a, b⟩ := e
    by_cases ha : a = k
    · simp [dictInsert, ha]
    · by_cases hk : k ∈ rest.map Prod.fst
      · simp [dictInsert, ha, Ne.symm ha, hk, ih]
      · simp [dictInsert, ha, Ne.symm ha, hk, ih]

theorem dictInsert_keys_nodup {α β : Type} [DecidableEq α]
    (d : List (α × β)) (k : α) (v : β) (h : (d.map Prod.fst).Nodup) :
    ((dictInsert d k v).map Prod.fst).Nodup := by
  rw [dictInsert_keys]
  by_cases hk : k ∈ d.map Prod.fst
  · simpa [hk] using h
  · simp [hk, List.nodup_append, h]

theorem mem_dictInsert {α β : Type} [DecidableEq α]
    (d : List (α × β)) (k : α) (v : β) (e : α × β)
    (h : e ∈ dictInsert d k v) : e ∈ d ∨ e = (k, v) := by
  induction d with
  | nil => simp [dictInsert] at h; right; exact h
  | cons f rest ih =>
    obtain ⟨a, b⟩ := f
    by_cases ha : a = k
    · rw [dictInsert, if_pos ha] at h
      rcases List.mem_cons.mp h with h1 | h1
      · right; exact h1
      · left; exact List.mem_cons_of_mem _ h1
    · rw [dictInsert, if_neg ha] at h
      rcases List.mem_cons.mp h with h1 | h1
      · left; exact h1 ▸ List.mem_cons_self _ _
      · rcases ih h1 with h2 | h2
        · left; exact List.mem_cons_of_mem _ h2
        · right; exact h2

theorem dictInsert_eq_self {α β : Type} [DecidableEq α]
    (d : List (α × β)) (k : α) (v : β) (h : dictLookup d k = some v) :
    dictInsert d k v = d := by
  induction d with
  | nil => simp [dictLookup] at h
  | cons e rest ih =>
    obtain ⟨a, b⟩ := e
    by_cases ha : a = k
    · rw [dictLookup, if_pos ha] at h
      rw [dictInsert, if_pos ha, ha]
      injection h with h
      rw [h]
    · rw [dictLookup, if_neg ha] at h
      rw [dictInsert, if_neg ha, ih h]

theorem dictDelete_insert_fresh {α β : Type} [DecidableEq α]
    (d : List (α × β)) (k : α) (v : β) (h : dictLookup d k = none) :
    dictDelete (dictInsert d k v) k = d := by
  induction d with
  | nil => simp [dictInsert, dictDelete]
  | cons e rest ih =>
    obtain ⟨a, b⟩ := e
    by_cases ha : a = k
    · rw [dictLookup, if_pos ha] at h; exact absurd h (by simp)
    · rw [dictLookup, if_neg ha] at h
      rw [dictInsert, if_neg ha, dictDelete, if_neg ha, ih h]

theorem dictInsert_dictInsert {α β : Type} [DecidableEq α]
    (d : List (α × β)) (k : α) (v w : β) :
    dictInsert (dictInsert d k v) k w = dictInsert d k w := by
  induction d with
  | nil => simp [dictInsert]
  | cons e rest ih =>
    obtain ⟨a, b⟩ := e
    by_cases ha : a = k
    · simp [dictInsert, ha]
    · simp [dictInsert, ha, ih]

theorem dictLookup_mem {α β : Type} [DecidableEq α]
    (d : List (α × β)) (k : α) (v : β) (h : dictLookup d k = some v) :
    (k, v) ∈ d := by
  induction d with
  | nil => simp [dictLookup] at h
  | cons e rest ih =>
    obtain ⟨a, b⟩ := e
    by_cases ha : a = k
    · rw [dictLookup, if_pos ha] at h
      injection h with h
      exact List.mem_cons.mpr (Or.inl (by rw [ha, h]))
    · rw [dictLookup, if_neg ha] at h
      exact List.mem_cons_of_mem _ (ih h)

/-! ## Lemmas about the channel-cleanup step of `disconnect` -/

theorem removeConn_keys_sublist (chans : Finset String) (ws : Nat)
    (d : List (String × Finset Nat)) :
    ((removeConnFromChannels chans ws d).map Prod.fst).Sublist (d.map Prod.fst) := by
  have hmap : (d.map (fun e => if e.1 ∈ chans then (e.1, e.2.erase ws) else e)).map Prod.fst
      = d.map Prod.fst := by
    rw [List.map_map]
    refine List.map_congr_left ?_
    intro e _
    by_cases h : e.1 ∈ chans <;> simp [h]
  have h2 : ((removeConnFromChannels chans ws d).map Prod.fst).Sublist
      ((d.map (fun e => if e.1 ∈ chans then (e.1, e.2.erase ws) else e)).map Prod.fst) :=
    (List.filter_sublist _).map Prod.fst
  rw [hmap] at h2
  exact h2

theorem removeConn_lookup_none (chans : Finset String) (ws : Nat)
    (d : List (String × Finset Nat)) (ch : String)
    (hc : dictLookup d ch = none) :
    dictLookup (removeConnFromChannels chans ws d) ch = none := by
  rw [dictLookup_eq_none_iff] at hc ⊢
  intro hmem
  exact hc ((removeConn_keys_sublist chans ws d).mem hmem)

theorem removeConn_lookup_mem (chans : Finset String) (ws : Nat)
    (d : List (String × Finset Nat)) (ch : String) (set : Finset Nat)
    (hnd : (d.map Prod.fst).Nodup) (hc : dictLookup d ch = some set)
    (hch : ch ∈ chans) :
    dictLookup (removeConnFromChannels chans ws d) ch =
      if set.erase ws = ∅ then none else some (set.erase ws) := by
  induction d with
  | nil => simp [dictLookup] at hc
  | cons e rest ih =>
    obtain ⟨a, b⟩ := e
    simp only [List.map_cons, List.nodup_cons] at hnd
    by_cases ha : a = ch
    · subst ha
      rw [dictLookup, if_pos rfl] at hc
      injection hc with hc
      subst hc
      by_cases hem : b.erase ws = ∅
      · rw [if_pos hem]
        have hdrop : removeConnFromChannels chans ws ((a, b) :: rest)
            = removeConnFromChannels chans ws rest := by
          simp [removeConnFromChannels, hch, hem]
        rw [hdrop]
        exact removeConn_lookup_none chans ws rest a
          ((dictLookup_eq_none_iff rest a).mpr hnd.1)
      · rw [if_neg hem]
        have hkeep : removeConnFromChannels chans ws ((a, b) :: rest)
            = (a, b.erase ws) :: removeConnFromChannels chans ws rest := by
          simp [removeConnFromChannels, hch, hem]
        rw [hkeep, dictLookup, if_pos rfl]
    · rw [dictLookup, if_neg ha] at hc
      by_cases hac : a ∈ chans
      · by_cases hbe : b.erase ws = ∅
        · have hdrop : removeConnFromChannels chans ws ((a, b) :: rest)
              = removeConnFromChannels chans ws rest := by
            simp [removeConnFromChannels, hac, hbe]
          rw [hdrop]
          exact ih hnd.2 hc
        · have hkeep : removeConnFromChannels chans ws ((a, b) :: rest)
              = (a, b.erase ws) :: removeConnFromChannels chans ws rest := by
            simp [removeConnFromChannels, hac, hbe]
          rw [hkeep, dictLookup, if_neg ha]
          exact ih hnd.2 hc
      · have hkeep : removeConnFromChannels chans ws ((a, b) :: rest)
            = (a, b) :: removeConnFromChannels chans ws rest := by
          simp [removeConnFromChannels, hac]
        rw [hkeep, dictLookup, if_neg ha]
        exact ih hnd.2 hc

theorem removeConn_lookup_not_mem (chans : Finset String) (ws : Nat)
    (d : List (String × Finset Nat)) (ch : String) (set : Finset Nat)
    (hnd : (d.map Prod.fst).Nodup) (hc : dictLookup d ch = some set)
    (hch : ch ∉ chans) :
    dictLookup (removeConnFromChannels chans ws d) ch = some set := by
  induction d with
  | nil => simp [dictLookup] at hc
  | cons e rest ih =>
    obtain ⟨a, b⟩ := e
    simp only [List.map_cons, List.nodup_cons] at hnd
    by_cases ha : a = ch
    · subst ha
      rw [dictLookup, if_pos rfl] at hc
      injection hc with hc
      subst hc
      have hkeep : removeConnFromChannels chans ws ((a, b) :: rest)
          = (a, b) :: removeConnFromChannels chans ws rest := by
        simp [removeConnFromChannels, hch]
      rw [hkeep, dictLookup, if_pos rfl]
    · rw [dictLookup, if_neg ha] at hc
      by_cases hac : a ∈ chans
      · by_cases hbe : b.erase ws = ∅
        · have hdrop : removeConnFromChannels chans ws ((a, b) :: rest)
              = removeConnFromChannels chans ws rest := by
            simp [removeConnFromChannels, hac, hbe]
          rw [hdrop]
          exact ih hnd.2 hc
        · have hkeep : removeConnFromChannels chans ws ((a, b) :: rest)
              = (a, b.erase ws) :: removeConnFromChannels chans ws rest := by
            simp [removeConnFromChannels, hac, hbe]
          rw [hkeep, dictLookup, if_neg ha]
          exact ih hnd.2 hc
      · have hkeep : removeConnFromChannels chans ws ((a, b) :: rest)
            = (a, b) :: removeConnFromChannels chans ws rest := by
          simp [removeConnFromChannels, hac]
        rw [hkeep, dictLookup, if_neg ha]
        exact ih hnd.2 hc

theorem removeConn_noEmpty (chans : Finset String) (ws : Nat)
    (d : List (String × Finset Nat)) (h : ∀ e ∈ d, e.2 ≠ (∅ : Finset Nat)) :
    ∀ e' ∈ removeConnFromChannels chans ws d, e'.2 ≠ (∅ : Finset Nat) := by
  intro e' he'
  rw [removeConnFromChannels, List.mem_filter] at he'
  obtain ⟨hmem, hpred⟩ := he'
  rcases List.mem_map.mp hmem with ⟨e, he, heq⟩
  by_cases hec : e.1 ∈ chans
  · rw [if_pos hec] at heq
    intro habs
    rw [decide_eq_true_iff] at hpred
    apply hpred
    refine ⟨?_, habs⟩
    rw [← heq]
    exact hec
  · rw [if_neg hec] at heq
    rw [← heq]
    exact h e he

theorem removeConn_subset (chans : Finset String) (ws : Nat)
    (d : List (String × Finset Nat)) :
    ∀ e' ∈ removeConnFromChannels chans ws d, ∃ e ∈ d, e'.2 ⊆ e.2 := by
  intro e' he'
  rw [removeConnFromChannels, List.mem_filter] at he'
  rcases List.mem_map.mp he'.1 with ⟨e, he, heq⟩
  refine ⟨e, he, ?_⟩
  by_cases hec : e.1 ∈ chans
  · rw [if_pos hec] at heq
    rw [← heq]
    exact Finset.erase_subset _ _
  · rw [if_neg hec] at heq
    rw [← heq]

/-! ## Characterizations of `disconnect` -/

theorem inChannelB_iff (s : WSState) (ch : String) (c : Nat) :
    inChannelB s ch c = true ↔
      ∃ set, dictLookup s.subscriptions ch = some set ∧ c ∈ set := by
  rw [inChannelB]
  cases h : dictLookup s.subscriptions ch <;> simp [h]

theorem inMetaSubsB_iff (s : WSState) (c : Nat) (ch : String) :
    inMetaSubsB s c ch = true ↔
      ∃ m, dictLookup s.connection_metadata c = some m ∧ ch ∈ m.subs := by
  rw [inMetaSubsB]
  cases h : dictLookup s.connection_metadata c <;> simp [h]

theorem disconnect_active (s : WSState) (ws : Nat) :
    (disconnect s ws).active_connections = s.active_connections.erase ws := by
  have hif : (if ws ∈ s.active_connections then s.active_connections.erase ws
      else s.active_connections) = s.active_connections.erase ws := by
    by_cases hm : ws ∈ s.active_connections
    · rw [if_pos hm]
    · rw [if_neg hm, List.erase_of_not_mem hm]
  cases h : dictLookup s.connection_metadata ws <;> simp [disconnect, h, hif]

theorem disconnect_subs_none (s : WSState) (ws : Nat)
    (h : dictLookup s.connection_metadata ws = none) :
    (disconnect s ws).subscriptions = s.subscriptions := by
  simp [disconnect, h]

theorem disconnect_subs_some (s : WSState) (ws : Nat) (m : Meta)
    (h : dictLookup s.connection_metadata ws = some m) :
    (disconnect s ws).subscriptions = removeConnFromChannels m.subs ws s.subscriptions := by
  simp [disconnect, h]

theorem disconnect_meta_none (s : WSState) (ws : Nat)
    (h : dictLookup s.connection_metadata ws = none) :
    (disconnect s ws).connection_metadata = s.connection_metadata := by
  simp [disconnect, h]

theorem disconnect_meta_some (s : WSState) (ws : Nat) (m : Meta)
    (h : dictLookup s.connection_metadata ws = some m) :
    (disconnect s ws).connection_metadata = dictDelete s.connection_metadata ws := by
  simp [disconnect, h]

theorem disconnect_metadata (s : WSState) (ws c : Nat)
    (hM : (s.connection_metadata.map Prod.fst).Nodup) :
    dictLookup (disconnect s ws).connection_metadata c =
      if c = ws then none else dictLookup s.connection_metadata c := by
  cases h : dictLookup s.connection_metadata ws with
  | none =>
    rw [disconnect_meta_none s ws h]
    by_cases hc : c = ws
    · rw [if_pos hc, hc]
      exact h
    · rw [if_neg hc]
  | some m =>
    rw [disconnect_meta_some s ws m h]
    by_cases hc : c = ws
    · rw [if_pos hc, hc]
      exact dictLookup_delete_self _ _ hM
    · rw [if_neg hc]
      exact dictLookup_delete_ne _ _ _ hc

theorem disconnect_eq_self (s : WSState) (ws : Nat)
    (hA : ws ∉ s.active_connections)
    (hm : dictLookup s.connection_metadata ws = none) :
    disconnect s ws = s := by
  simp [disconnect, hm, hA]

/-! ## `disconnect` preserves the registry invariants -/

theorem disconnect_consistent (s : WSState) (ws : Nat) (hC : Consistent s)
    (hM : (s.connection_metadata.map Prod.fst).Nodup)
    (hS : (s.subscriptions.map Prod.fst).Nodup) :
    Consistent (disconnect s ws) := by
  intro c ch
  rw [inChannelB_iff, inMetaSubsB_iff, disconnect_metadata s ws c hM]
  by_cases hc : c = ws
  · subst hc
    rw [if_pos rfl]
    constructor
    · rintro ⟨set', hset', hmem⟩
      exfalso
      cases hm : dictLookup s.connection_metadata c with
      | none =>
        rw [disconnect_subs_none s c hm] at hset'
        have hmeta : inMetaSubsB s c ch = true :=
          (hC c ch).mp ((inChannelB_iff s ch c).mpr ⟨set', hset', hmem⟩)
        rw [inMetaSubsB_iff] at hmeta
        rcases hmeta with ⟨m, hm2, _⟩
        rw [hm] at hm2
        exact Option.noConfusion hm2
      | some m =>
        rw [disconnect_subs_some s c m hm] at hset'
        by_cases hcm : ch ∈ m.subs
        · cases hsch : dictLookup s.subscriptions ch with
          | none =>
            rw [removeConn_lookup_none _ _ _ _ hsch] at hset'
            exact Option.noConfusion hset'
          | some set =>
            rw [removeConn_lookup_mem _ _ _ _ _ hS hsch hcm] at hset'
            by_cases he : set.erase c = ∅
            · rw [if_pos he] at hset'
              exact Option.noConfusion hset'
            · rw [if_neg he] at hset'
              injection hset' with hset'
              subst hset'
              exact (Finset.mem_erase.mp hmem).1 rfl
        · cases hsch : dictLookup s.subscriptions ch with
          | none =>
            rw [removeConn_lookup_none _ _ _ _ hsch] at hset'
            exact Option.noConfusion hset'
          | some set =>
            rw [removeConn_lookup_not_mem _ _ _ _ _ hS hsch hcm] at hset'
            injection hset' with hset'
            subst hset'
            have hmeta : inMetaSubsB s c ch = true :=
              (hC c ch).mp ((inChannelB_iff s ch c).mpr ⟨set, hsch, hmem⟩)
            rw [inMetaSubsB_iff] at hmeta
            rcases hmeta with ⟨m', hm', hchm'⟩
            rw [hm] at hm'
            injection hm' with hm'
            subst hm'
            exact hcm hchm'
    · rintro ⟨m, hmabs, _⟩
      exact Option.noConfusion hmabs
  · rw [if_neg hc]
    have hold := hC c ch
    rw [inChannelB_iff, inMetaSubsB_iff] at hold
    cases hm : dictLookup s.connection_metadata ws with
    | none =>
      rw [disconnect_subs_none s ws hm]
      exact hold
    | some m =>
      rw [disconnect_subs_some s ws m hm]
      by_cases hcm : ch ∈ m.subs
      · cases hsch : dictLookup s.subscriptions ch with
        | none =>
          rw [removeConn_lookup_none _ _ _ _ hsch]
          constructor
          · rintro ⟨set, habs, _⟩
            exact Option.noConfusion habs
          · intro hr
            rcases hold.mpr hr with ⟨set, habs, _⟩
            rw [hsch] at habs
            exact Option.noConfusion habs
        | some set =>
          rw [removeConn_lookup_mem _ _ _ _ _ hS hsch hcm]
          by_cases he : set.erase ws = ∅
          · rw [if_pos he]
            constructor
            · rintro ⟨set', habs, _⟩
              exact Option.noConfusion habs
            · intro hr
              rcases hold.mpr hr with ⟨set', hset', hcset⟩
              rw [hsch] at hset'
              injection hset' with hset'
              subst hset'
              have hce : c ∈ Finset.erase set ws := Finset.mem_erase.mpr ⟨hc, hcset⟩
              rw [he] at hce
              exact absurd hce (Finset.not_mem_empty c)
          · rw [if_neg he]
            constructor
            · rintro ⟨set', hset', hcset⟩
              injection hset' with hset'
              subst hset'
              exact hold.mp ⟨set, hsch, (Finset.mem_erase.mp hcset).2⟩
            · intro hr
              rcases hold.mpr hr with ⟨set', hset', hcset⟩
              rw [hsch] at hset'
              injection hset' with hset'
              subst hset'
              exact ⟨Finset.erase set ws, rfl, Finset.mem_erase.mpr ⟨hc, hcset⟩⟩
      · cases hsch : dictLookup s.subscriptions ch with
        | none =>
          rw [removeConn_lookup_none _ _ _ _ hsch]
          constructor
          · rintro ⟨set, habs, _⟩
            exact Option.noConfusion habs
          · intro hr
            rcases hold.mpr hr with ⟨set, habs, _⟩
            rw [hsch] at habs
            exact Option.noConfusion habs
        | some set =>
          rw [removeConn_lookup_not_mem _ _ _ _ _ hS hsch hcm]
          constructor
          · rintro ⟨set', hset', hcset⟩
            injection hset' with hset'
            subst hset'
            exact hold.mp ⟨set, hsch, hcset⟩
          · intro hr
            rcases hold.mpr hr with ⟨set', hset', hcset⟩
            rw [hsch] at hset'
            injection hset' with hset'
            subst hset'
            exact ⟨set, rfl, hcset⟩

theorem disconnect_metaNodup (s : WSState) (ws : Nat)
    (h : (s.connection_metadata.map Prod.fst).Nodup) :
    ((disconnect s ws).connection_metadata.map Prod.fst).Nodup := by
  cases hm : dictLookup s.connection_metadata ws with
  | none => rw [disconnect_meta_none s ws hm]; exact h
  | some m =>
    rw [disconnect_meta_some s ws m hm]
    exact (dictDelete_keys_sublist _ _).nodup h

theorem disconnect_subsNodup (s : WSState) (ws : Nat)
    (h : (s.subscriptions.map Prod.fst).Nodup) :
    ((disconnect s ws).subscriptions.map Prod.fst).Nodup := by
  cases hm : dictLookup s.connection_metadata ws with
  | none => rw [disconnect_subs_none s ws hm]; exact h
  | some m =>
    rw [disconnect_subs_some s ws m hm]
    exact (removeConn_keys_sublist _ _ _).nodup h

theorem disconnect_activeNodup (s : WSState) (ws : Nat)
    (h : s.active_connections.Nodup) :
    (disconnect s ws).active_connections.Nodup := by
  rw [disconnect_active]
  exact h.erase ws

theorem disconnect_noEmpty (s : WSState) (ws : Nat) (h : noEmptyChannels s) :
    noEmptyChannels (disconnect s ws) := by
  cases hm : dictLookup s.connection_metadata ws with
  | none =>
    intro e he
    rw [disconnect_subs_none s ws hm] at he
    exact h e he
  | some m =>
    intro e he
    rw [disconnect_subs_some s ws m hm] at he
    exact removeConn_noEmpty _ _ _ h e he

theorem disconnect_activeIffMeta (s : WSState) (ws : Nat)
    (hM : (s.connection_metadata.map Prod.fst).Nodup)
    (hA : s.active_connections.Nodup)
    (h : ∀ c, c ∈ s.active_connections ↔ (dictLookup s.connection_metadata c).isSome) :
    ∀ c, c ∈ (disconnect s ws).active_connections ↔
      (dictLookup (disconnect s ws).connection_metadata c).isSome := by
  intro c
  rw [disconnect_active, disconnect_metadata s ws c hM]
  by_cases hc : c = ws
  · subst hc
    rw [if_pos rfl]
    simp only [Option.isSome_none, Bool.false_eq_true, iff_false]
    exact (List.Nodup.not_mem_erase hA)
  · rw [if_neg hc, List.mem_erase_of_ne hc]
    exact h c

/-- `disconnect` preserves the full registry invariant. -/
theorem disconnect_regInv (s : WSState) (ws : Nat) (h : RegInv s) :
    RegInv (disconnect s ws) :=
  { consistent := disconnect_consistent s ws h.consistent h.metaNodup h.subsNodup
    metaNodup := disconnect_metaNodup s ws h.metaNodup
    subsNodup := disconnect_subsNodup s ws h.subsNodup
    activeNodup := disconnect_activeNodup s ws h.activeNodup
    activeIffMeta := disconnect_activeIffMeta s ws h.metaNodup h.activeNodup h.activeIffMeta
    noEmpty := disconnect_noEmpty s ws h.noEmpty }

/-- `send_personal_message` preserves the full registry invariant (its only
state effect is a possible `disconnect`). -/
theorem send_personal_regInv (fails : Nat → Bool) (s : WSState) (ws : Nat)
    (m : Msg) (h : RegInv s) : RegInv (send_personal_message fails s ws m).1 := by
  rw [send_personal_message]
  by_cases hf : fails ws
  · simp only [hf, if_true]
    exact disconnect_regInv s ws h
  · simp only [hf, if_false]
    exact h

/-! ## Characterizations of `connect`, `subscribe`, `unsubscribe` -/

theorem mem_dictDelete {α β : Type} [DecidableEq α]
    (d : List (α × β)) (k : α) (e : α × β) (h : e ∈ dictDelete d k) : e ∈ d := by
  induction d with
  | nil => simp [dictDelete] at h
  | cons f rest ih =>
    obtain ⟨a, b⟩ := f
    by_cases ha : a = k
    · rw [dictDelete, if_pos ha] at h
      exact List.mem_cons_of_mem _ h
    · rw [dictDelete, if_neg ha] at h
      rcases List.mem_cons.mp h with h1 | h1
      · exact h1 ▸ List.mem_cons_self _ _
      · exact List.mem_cons_of_mem _ (ih h1)

theorem connectState_active (s : WSState) (ws now : Nat) :
    (connectState s ws now).active_connections = s.active_connections ++ [ws] := rfl

theorem connectState_subs (s : WSState) (ws now : Nat) :
    (connectState s ws now).subscriptions = s.subscriptions := rfl

theorem connectState_meta (s : WSState) (ws now : Nat) :
    (connectState s ws now).connection_metadata =
      dictInsert s.connection_metadata ws ⟨now, ∅, now⟩ := rfl

theorem subscribeState_active (s : WSState) (ws : Nat) (ch : String) :
    (subscribeState s ws ch).active_connections = s.active_connections := by
  cases h : dictLookup s.subscriptions ch <;>
    cases h2 : dictLookup s.connection_metadata ws <;>
      simp [subscribeState, h, h2]

theorem subscribeState_subs (s : WSState) (ws : Nat) (ch : String) :
    (subscribeState s ws ch).subscriptions =
      dictInsert s.subscriptions ch
        (insert ws ((dictLookup s.subscriptions ch).getD ∅)) := by
  cases h : dictLookup s.subscriptions ch with
  | none =>
    simp [subscribeState, h, dictLookup_insert_self, dictInsert_dictInsert]
  | some set =>
    simp [subscribeState, h]

theorem subscribeState_meta_some (s : WSState) (ws : Nat) (ch : String) (m : Meta)
    (h : dictLookup s.connection_metadata ws = some m) :
    (subscribeState s ws ch).connection_metadata =
      dictInsert s.connection_metadata ws { m with subs := insert ch m.subs } := by
  simp [subscribeState, h]

theorem subscribeState_meta_none (s : WSState) (ws : Nat) (ch : String)
    (h : dictLookup s.connection_metadata ws = none) :
    (subscribeState s ws ch).connection_metadata = s.connection_metadata := by
  simp [subscribeState, h]

theorem unsubscribeState_active (s : WSState) (ws : Nat) (ch : String) :
    (unsubscribeState s ws ch).active_connections = s.active_connections := by
  cases h : dictLookup s.subscriptions ch <;>
    cases h2 : dictLookup s.connection_metadata ws <;>
      simp [unsubscribeState, h, h2]

theorem unsubscribeState_subs_none (s : WSState) (ws : Nat) (ch : String)
    (h : dictLookup s.subscriptions ch = none) :
    (unsubscribeState s ws ch).subscriptions = s.subscriptions := by
  simp [unsubscribeState, h]

theorem unsubscribeState_subs_del (s : WSState) (ws : Nat) (ch : String)
    (set : Finset Nat) (h : dictLookup s.subscriptions ch = some set)
    (he : set.erase ws = ∅) :
    (unsubscribeState s ws ch).subscriptions = dictDelete s.subscriptions ch := by
  simp [unsubscribeState, h, he]

theorem unsubscribeState_subs_upd (s : WSState) (ws : Nat) (ch : String)
    (set : Finset Nat) (h : dictLookup s.subscriptions ch = some set)
    (he : set.erase ws ≠ ∅) :
    (unsubscribeState s ws ch).subscriptions =
      dictInsert s.subscriptions ch (set.erase ws) := by
  simp [unsubscribeState, h, he]

theorem unsubscribeState_meta_some (s : WSState) (ws : Nat) (ch : String) (m : Meta)
    (h : dictLookup s.connection_metadata ws = some m) :
    (unsubscribeState s ws ch).connection_metadata =
      dictInsert s.connection_metadata ws { m with subs := m.subs.erase ch } := by
  simp [unsubscribeState, h]

theorem unsubscribeState_meta_none (s : WSState) (ws : Nat) (ch : String)
    (h : dictLookup s.connection_metadata ws = none) :
    (unsubscribeState s ws ch).connection_metadata = s.connection_metadata := by
  simp [unsubscribeState, h]

/-! ## The other operations preserve the registry invariants -/

theorem connectState_regInv (s : WSState) (ws now : Nat) (h : RegInv s)
    (hfresh : dictLookup s.connection_metadata ws = none) :
    RegInv (connectState s ws now) := by
  have hwsact : ws ∉ s.active_connections := by
    intro hmem
    have h2 := (h.activeIffMeta ws).mp hmem
    rw [hfresh] at h2
    simp at h2
  refine ⟨?_, ?_, ?_, ?_, ?_, ?_⟩
  · intro c ch
    rw [inChannelB_iff, inMetaSubsB_iff, connectState_subs, connectState_meta]
    by_cases hc : c = ws
    · subst hc
      rw [dictLookup_insert_self]
      constructor
      · rintro ⟨set, hset, hmem⟩
        have h2 := (h.consistent c ch).mp ((inChannelB_iff s ch c).mpr ⟨set, hset, hmem⟩)
        rw [inMetaSubsB_iff] at h2
        rcases h2 with ⟨m, hm, _⟩
        rw [hfresh] at hm
        exact Option.noConfusion hm
      · rintro ⟨m, hm, hchm⟩
        injection hm with hm
        rw [← hm] at hchm
        exact absurd hchm (Finset.not_mem_empty ch)
    · rw [dictLookup_insert_ne _ _ _ _ hc]
      have hold := h.consistent c ch
      rw [inChannelB_iff, inMetaSubsB_iff] at hold
      exact hold
  · rw [connectState_meta]
    exact dictInsert_keys_nodup _ _ _ h.metaNodup
  · rw [connectState_subs]
    exact h.subsNodup
  · rw [connectState_active]
    simp [List.nodup_append, h.activeNodup, hwsact]
  · intro c
    rw [connectState_active, connectState_meta]
    by_cases hc : c = ws
    · subst hc
      rw [dictLookup_insert_self]
      simp
    · rw [dictLookup_insert_ne _ _ _ _ hc]
      simp only [List.mem_append, List.mem_singleton]
      constructor
      · rintro (h1 | h1)
        · exact (h.activeIffMeta c).mp h1
        · exact absurd h1 hc
      · intro h1
        exact Or.inl ((h.activeIffMeta c).mpr h1)
  · intro e he
    rw [connectState_subs] at he
    exact h.noEmpty e he

theorem subscribeState_regInv (s : WSState) (ws : Nat) (ch : String) (m : Meta)
    (h : RegInv s) (hreg : dictLookup s.connection_metadata ws = some m) :
    RegInv (subscribeState s ws ch) := by
  refine ⟨?_, ?_, ?_, ?_, ?_, ?_⟩
  · intro c ch'
    rw [inChannelB_iff, inMetaSubsB_iff, subscribeState_subs,
      subscribeState_meta_some s ws ch m hreg]
    by_cases hc : c = ws
    · subst hc
      rw [dictLookup_insert_self]
      by_cases hch : ch' = ch
      · subst hch
        rw [dictLookup_insert_self]
        constructor
        · intro _
          exact ⟨_, rfl, Finset.mem_insert_self _ _⟩
        · intro _
          exact ⟨_, rfl, Finset.mem_insert_self _ _⟩
      · rw [dictLookup_insert_ne _ _ _ _ hch]
        have hold := h.consistent c ch'
        rw [inChannelB_iff, inMetaSubsB_iff] at hold
        constructor
        · intro hl
          rcases hold.mp hl with ⟨m', hm', hmem'⟩
          rw [hreg] at hm'
          injection hm' with hm'
          subst hm'
          exact ⟨_, rfl, Finset.mem_insert_of_mem hmem'⟩
        · rintro ⟨mm, hmm, hmem'⟩
          injection hmm with hmm
          rw [← hmm] at hmem'
          have hms : ch' ∈ m.subs := by
            rcases Finset.mem_insert.mp hmem' with h1 | h1
            · exact absurd h1 hch
            · exact h1
          exact hold.mpr ⟨m, hreg, hms⟩
    · rw [dictLookup_insert_ne _ _ _ _ hc]
      by_cases hch : ch' = ch
      · subst hch
        rw [dictLookup_insert_self]
        have hold := h.consistent c ch'
        rw [inChannelB_iff, inMetaSubsB_iff] at hold
        constructor
        · rintro ⟨set, hset, hmem⟩
          injection hset with hset
          subst hset
          rcases Finset.mem_insert.mp hmem with h1 | h1
          · exact absurd h1 hc
          · cases hl : dictLookup s.subscriptions ch' with
            | none =>
              rw [hl] at h1
              simp at h1
            | some set0 =>
              rw [hl] at h1
              exact hold.mp ⟨set0, hl, by simpa using h1⟩
        · intro hr
          rcases hold.mpr hr with ⟨set0, hl, hmem⟩
          refine ⟨_, rfl, ?_⟩
          rw [hl]
          simp only [Option.getD_some]
          exact Finset.mem_insert_of_mem hmem
      · rw [dictLookup_insert_ne _ _ _ _ hch]
        have hold := h.consistent c ch'
        rw [inChannelB_iff, inMetaSubsB_iff] at hold
        exact hold
  · rw [subscribeState_meta_some s ws ch m hreg]
    exact dictInsert_keys_nodup _ _ _ h.metaNodup
  · rw [subscribeState_subs]
    exact dictInsert_keys_nodup _ _ _ h.subsNodup
  · rw [subscribeState_active]
    exact h.activeNodup
  · intro c
    rw [subscribeState_active, subscribeState_meta_some s ws ch m hreg]
    by_cases hc : c = ws
    · subst hc
      rw [dictLookup_insert_self]
      have h2 := h.activeIffMeta c
      rw [hreg] at h2
      simpa using h2
    · rw [dictLookup_insert_ne _ _ _ _ hc]
      exact h.activeIffMeta c
  · intro e he
    rw [subscribeState_subs] at he
    rcases mem_dictInsert _ _ _ _ he with h1 | h1
    · exact h.noEmpty e h1
    · rw [h1]
      exact Finset.insert_ne_empty _ _

theorem unsubscribeState_subs_lookup_ne (s : WSState) (ws : Nat) (ch ch' : String)
    (hne : ch' ≠ ch) :
    dictLookup (unsubscribeState s ws ch).subscriptions ch' =
      dictLookup s.subscriptions ch' := by
  cases hl : dictLookup s.subscriptions ch with
  | none => rw [unsubscribeState_subs_none s ws ch hl]
  | some set =>
    by_cases he : set.erase ws = ∅
    · rw [unsubscribeState_subs_del s ws ch set hl he]
      exact dictLookup_delete_ne _ _ _ hne
    · rw [unsubscribeState_subs_upd s ws ch set hl he]
      exact dictLookup_insert_ne _ _ _ _ hne

theorem unsub_lookup_self_none (s : WSState) (ws : Nat) (ch : String)
    (hl : dictLookup s.subscriptions ch = none) :
    dictLookup (unsubscribeState s ws ch).subscriptions ch = none := by
  rw [unsubscribeState_subs_none s ws ch hl]
  exact hl

theorem unsub_lookup_self_del (s : WSState) (ws : Nat) (ch : String)
    (set : Finset Nat) (hl : dictLookup s.subscriptions ch = some set)
    (he : set.erase ws = ∅) (hS : (s.subscriptions.map Prod.fst).Nodup) :
    dictLookup (unsubscribeState s ws ch).subscriptions ch = none := by
  rw [unsubscribeState_subs_del s ws ch set hl he]
  exact dictLookup_delete_self _ _ hS

theorem unsub_lookup_self_upd (s : WSState) (ws : Nat) (ch : String)
    (set : Finset Nat) (hl : dictLookup s.subscriptions ch = some set)
    (he : set.erase ws ≠ ∅) :
    dictLookup (unsubscribeState s ws ch).subscriptions ch = some (set.erase ws) := by
  rw [unsubscribeState_subs_upd s ws ch set hl he]
  exact dictLookup_insert_self _ _ _

theorem unsubscribeState_meta_lookup_ne (s : WSState) (ws : Nat) (ch : String)
    (c : Nat) (hc : c ≠ ws) :
    dictLookup (unsubscribeState s ws ch).connection_metadata c =
      dictLookup s.connection_metadata c := by
  cases hm : dictLookup s.connection_metadata ws with
  | none => rw [unsubscribeState_meta_none s ws ch hm]
  | some m =>
    rw [unsubscribeState_meta_some s ws ch m hm]
    exact dictLookup_insert_ne _ _ _ _ hc

theorem unsubscribeState_meta_lookup_self (s : WSState) (ws : Nat) (ch : String) :
    dictLookup (unsubscribeState s ws ch).connection_metadata ws =
      Option.map (fun m => { m with subs := m.subs.erase ch })
        (dictLookup s.connection_metadata ws) := by
  cases hm : dictLookup s.connection_metadata ws with
  | none =>
    rw [unsubscribeState_meta_none s ws ch hm, hm]
    rfl
  | some m =>
    rw [unsubscribeState_meta_some s ws ch m hm, dictLookup_insert_self]
    rfl

theorem unsubscribeState_regInv (s : WSState) (ws : Nat) (ch : String)
    (h : RegInv s) : RegInv (unsubscribeState s ws ch) := by
  refine ⟨?_, ?_, ?_, ?_, ?_, ?_⟩
  · intro c ch'
    rw [inChannelB_iff, inMetaSubsB_iff]
    by_cases hc : c = ws
    · subst hc
      rw [unsubscribeState_meta_lookup_self]
      by_cases hch : ch' = ch
      · subst hch
        constructor
        · rintro ⟨set', hset', hmem⟩
          exfalso
          cases hl : dictLookup s.subscriptions ch' with
          | none =>
            rw [unsub_lookup_self_none s c ch' hl] at hset'
            exact Option.noConfusion hset'
          | some set =>
            by_cases he : set.erase c = ∅
            · rw [unsub_lookup_self_del s c ch' set hl he h.subsNodup] at hset'
              exact Option.noConfusion hset'
            · rw [unsub_lookup_self_upd s c ch' set hl he] at hset'
              injection hset' with hset'
              subst hset'
              exact (Finset.mem_erase.mp hmem).1 rfl
        · rintro ⟨mm, hmm, hmem⟩
          exfalso
          cases hmo : dictLookup s.connection_metadata c with
          | none =>
            rw [hmo] at hmm
            exact Option.noConfusion hmm
          | some m =>
            rw [hmo] at hmm
            injection hmm with hmm
            rw [← hmm] at hmem
            exact (Finset.mem_erase.mp hmem).1 rfl
      · rw [unsubscribeState_subs_lookup_ne s c ch ch' hch]
        have hold := h.consistent c ch'
        rw [inChannelB_iff, inMetaSubsB_iff] at hold
        cases hmo : dictLookup s.connection_metadata c with
        | none =>
          constructor
          · intro hl
            rcases hold.mp hl with ⟨m, hm, _⟩
            rw [hmo] at hm
            exact Option.noConfusion hm
          · rintro ⟨mm, hmm, _⟩
            simp at hmm
        | some m =>
          constructor
          · intro hl
            rcases hold.mp hl with ⟨m', hm', hmem'⟩
            rw [hmo] at hm'
            injection hm' with hm'
            subst hm'
            refine ⟨_, rfl, ?_⟩
            exact Finset.mem_erase.mpr ⟨hch, hmem'⟩
          · rintro ⟨mm, hmm, hmem⟩
            injection hmm with hmm
            rw [← hmm] at hmem
            exact hold.mpr ⟨m, hmo, (Finset.mem_erase.mp hmem).2⟩
    · rw [unsubscribeState_meta_lookup_ne s ws ch c hc]
      have hold := h.consistent c ch'
      rw [inChannelB_iff, inMetaSubsB_iff] at hold
      by_cases hch : ch' = ch
      · subst hch
        cases hl : dictLookup s.subscriptions ch' with
        | none =>
          rw [unsub_lookup_self_none s ws ch' hl]
          constructor
          · rintro ⟨set', habs, _⟩
            exact Option.noConfusion habs
          · intro hr
            rcases hold.mpr hr with ⟨set, habs, _⟩
            rw [hl] at habs
            exact Option.noConfusion habs
        | some set =>
          by_cases he : set.erase ws = ∅
          · rw [unsub_lookup_self_del s ws ch' set hl he h.subsNodup]
            constructor
            · rintro ⟨set', habs, _⟩
              exact Option.noConfusion habs
            · intro hr
              rcases hold.mpr hr with ⟨set', hset', hmem⟩
              rw [hl] at hset'
              injection hset' with hset'
              subst hset'
              have hce : c ∈ Finset.erase set ws := Finset.mem_erase.mpr ⟨hc, hmem⟩
              rw [he] at hce
              exact absurd hce (Finset.not_mem_empty c)
          · rw [unsub_lookup_self_upd s ws ch' set hl he]
            constructor
            · rintro ⟨set', hset', hmem⟩
              injection hset' with hset'
              subst hset'
              exact hold.mp ⟨set, hl, (Finset.mem_erase.mp hmem).2⟩
            · intro hr
              rcases hold.mpr hr with ⟨set', hset', hmem⟩
              rw [hl] at hset'
              injection hset' with hset'
              subst hset'
              exact ⟨_, rfl, Finset.mem_erase.mpr ⟨hc, hmem⟩⟩
      · rw [unsubscribeState_subs_lookup_ne s ws ch ch' hch]
        exact hold
  · cases hm : dictLookup s.connection_metadata ws with
    | none =>
      rw [unsubscribeState_meta_none s ws ch hm]
      exact h.metaNodup
    | some m =>
      rw [unsubscribeState_meta_some s ws ch m hm]
      exact dictInsert_keys_nodup _ _ _ h.metaNodup
  · cases hl : dictLookup s.subscriptions ch with
    | none =>
      rw [unsubscribeState_subs_none s ws ch hl]
      exact h.subsNodup
    | some set =>
      by_cases he : set.erase ws = ∅
      · rw [unsubscribeState_subs_del s ws ch set hl he]
        exact (dictDelete_keys_sublist _ _).nodup h.subsNodup
      · rw [unsubscribeState_subs_upd s ws ch set hl he]
        exact dictInsert_keys_nodup _ _ _ h.subsNodup
  · rw [unsubscribeState_active]
    exact h.activeNodup
  · intro c
    rw [unsubscribeState_active]
    by_cases hc : c = ws
    · subst hc
      rw [unsubscribeState_meta_lookup_self]
      cases hm : dictLookup s.connection_metadata c with
      | none =>
        have h2 := h.activeIffMeta c
        rw [hm] at h2
        simpa using h2
      | some m =>
        have h2 := h.activeIffMeta c
        rw [hm] at h2
        simpa using h2
    · rw [unsubscribeState_meta_lookup_ne s ws ch c hc]
      exact h.activeIffMeta c
  · intro e he
    cases hl : dictLookup s.subscriptions ch with
    | none =>
      rw [unsubscribeState_subs_none s ws ch hl] at he
      exact h.noEmpty e he
    | some set =>
      by_cases hem : set.erase ws = ∅
      · rw [unsubscribeState_subs_del s ws ch set hl hem] at he
        exact h.noEmpty e (mem_dictDelete _ _ _ he)
      · rw [unsubscribeState_subs_upd s ws ch set hl hem] at he
        rcases mem_dictInsert _ _ _ _ he with h1 | h1
        · exact h.noEmpty e h1
        · rw [h1]
          exact hem

/-- Every state reachable under the connect-at-most-once /
subscribe-after-connect discipline satisfies the full registry invariant. -/
theorem reach_regInv (s : WSState) (h : Reach s) : RegInv s := by
  induction h with
  | init =>
    refine ⟨?_, ?_, ?_, ?_, ?_, ?_⟩
    · intro c ch
      simp [inChannelB, inMetaSubsB, initialState, dictLookup]
    · simp [initialState]
    · simp [initialState]
    · simp [initialState]
    · intro c
      simp [initialState, dictLookup]
    · intro e he
      simp [initialState] at he
  | connect fails s ws now hr hfresh ih =>
    exact send_personal_regInv fails (connectState s ws now) ws
      Msg.connectionEstablished (connectState_regInv s ws now ih hfresh)
  | disconnect s ws hr ih =>
    exact disconnect_regInv s ws ih
  | subscribe fails s ws ch hr hreg ih =>
    obtain ⟨m, hm⟩ := Option.isSome_iff_exists.mp hreg
    exact send_personal_regInv fails (subscribeState s ws ch) ws
      (Msg.subscriptionConfirmed ch) (subscribeState_regInv s ws ch m ih hm)
  | unsubscribe fails s ws ch hr ih =>
    exact send_personal_regInv fails (unsubscribeState s ws ch) ws
      (Msg.unsubscriptionConfirmed ch) (unsubscribeState_regInv s ws ch ih)

/-! ## Lemmas about folded disconnects (broadcast / stale-cleanup passes) -/

theorem removeConn_empty (ws : Nat) (d : List (String × Finset Nat)) :
    removeConnFromChannels ∅ ws d = d := by
  induction d with
  | nil => rfl
  | cons e rest ih =>
    obtain ⟨a, b⟩ := e
    simp only [removeConnFromChannels] at ih ⊢
    simp [ih, Finset.not_mem_empty]

theorem dictLookup_of_mem_nodup {α β : Type} [DecidableEq α]
    (d : List (α × β)) (e : α × β) (h : (d.map Prod.fst).Nodup) (he : e ∈ d) :
    dictLookup d e.1 = some e.2 := by
  induction d with
  | nil => simp at he
  | cons f rest ih =>
    obtain ⟨a, b⟩ := f
    simp only [List.map_cons, List.nodup_cons] at h
    rcases List.mem_cons.mp he with h1 | h1
    · rw [h1, dictLookup, if_pos rfl]
    · have hne : a ≠ e.1 := by
        intro habs
        exact h.1 (habs ▸ List.mem_map.mpr ⟨e, h1, rfl⟩)
      rw [dictLookup, if_neg hne]
      exact ih h.2 h1

theorem dictLookup_delete_self_of_count {α β : Type} [DecidableEq α]
    (d : List (α × β)) (k : α) (h : List.count k (d.map Prod.fst) ≤ 1) :
    dictLookup (dictDelete d k) k = none := by
  induction d with
  | nil => simp [dictDelete, dictLookup]
  | cons e rest ih =>
    obtain ⟨a, b⟩ := e
    by_cases ha : a = k
    · subst ha
      rw [dictDelete, if_pos rfl, dictLookup_eq_none_iff]
      simp only [List.map_cons, List.count_cons_self] at h
      have h0 : List.count a (rest.map Prod.fst) = 0 := by omega
      exact List.count_eq_zero.mp h0
    · rw [dictDelete, if_neg ha, dictLookup, if_neg ha]
      apply ih
      simpa [List.count_cons, ha] using h

theorem dictLookup_map_val {α β γ : Type} [DecidableEq α]
    (d : List (α × β)) (f : β → γ) (k : α) :
    dictLookup (d.map (fun e => (e.1, f e.2))) k = Option.map f (dictLookup d k) := by
  induction d with
  | nil => rfl
  | cons e rest ih =>
    obtain ⟨a, b⟩ := e
    by_cases ha : a = k
    · simp [dictLookup, ha]
    · simp [dictLookup, ha, ih]

theorem mem_dict_filter_keys {α β : Type} [DecidableEq α]
    (d : List (α × β)) (p : α × β → Bool) (k : α)
    (h : (d.map Prod.fst).Nodup) :
    k ∈ (d.filter p).map Prod.fst ↔
      ∃ v, dictLookup d k = some v ∧ p (k, v) = true := by
  induction d with
  | nil => simp [dictLookup]
  | cons e rest ih =>
    obtain ⟨a, b⟩ := e
    simp only [List.map_cons, List.nodup_cons] at h
    by_cases ha : a = k
    · subst ha
      by_cases hp : p (a, b) = true
      · simp only [List.filter_cons, hp, if_true, List.map_cons]
        constructor
        · intro _
          exact ⟨b, by rw [dictLookup, if_pos rfl], hp⟩
        · intro _
          exact List.mem_cons_self _ _
      · simp only [List.filter_cons, hp, if_false]
        constructor
        · intro hmem
          exfalso
          exact h.1 (((List.filter_sublist _).map Prod.fst).mem hmem)
        · rintro ⟨v, hv, hpv⟩
          rw [dictLookup, if_pos rfl] at hv
          injection hv with hv
          subst hv
          exact absurd hpv hp
    · have hstep : dictLookup ((a, b) :: rest) k = dictLookup rest k := by
        rw [dictLookup, if_neg ha]
      rw [hstep]
      by_cases hp : p (a, b) = true
      · simp only [List.filter_cons, hp, if_true, List.map_cons]
        rw [List.mem_cons]
        constructor
        · rintro (h1 | h1)
          · exact absurd h1.symm ha
          · exact (ih h.2).mp h1
        · intro h1
          exact Or.inr ((ih h.2).mpr h1)
      · simp only [List.filter_cons, hp, if_false]
        exact ih h.2

theorem count_filter_of_pred (p : Nat → Bool) (B : Nat) (hB : p B = true)
    (l : List Nat) : List.count B (l.filter p) = List.count B l := by
  induction l with
  | nil => rfl
  | cons a l ih =>
    by_cases ha : p a = true
    · rw [List.filter_cons, if_pos ha]
      by_cases hab : a = B
      · subst hab
        simp [List.count_cons, ih]
      · simp [List.count_cons, hab, ih]
    · rw [List.filter_cons, if_neg ha]
      have hab : a ≠ B := by
        intro habs
        exact ha (habs ▸ hB)
      simp [List.count_cons, hab, ih]

theorem foldl_erase_not_mem (B : Nat) (l : List Nat) :
    ∀ acc : List Nat, List.count B acc ≤ List.count B l →
      B ∉ l.foldl (fun a c => a.erase c) acc := by
  induction l with
  | nil =>
    intro acc h
    simp only [List.count_nil, Nat.le_zero] at h
    simp only [List.foldl_nil]
    exact List.count_eq_zero.mp h
  | cons c l ih =>
    intro acc h
    rw [List.foldl_cons]
    apply ih
    by_cases hc : c = B
    · subst hc
      rw [List.count_erase_self]
      rw [List.count_cons_self] at h
      omega
    · rw [List.count_erase_of_ne (fun habs => hc habs.symm)]
      rw [List.count_cons_of_ne (fun habs => hc habs.symm)] at h
      exact h

theorem foldl_erase_mem (B : Nat) (l : List Nat) :
    ∀ acc : List Nat, B ∉ l → B ∈ acc →
      B ∈ l.foldl (fun a c => a.erase c) acc := by
  induction l with
  | nil =>
    intro acc _ hacc
    simpa using hacc
  | cons c l ih =>
    intro acc hl hacc
    rw [List.foldl_cons]
    have hcB : B ≠ c := fun habs => hl (habs ▸ List.mem_cons_self _ _)
    exact ih _ (fun habs => hl (List.mem_cons_of_mem _ habs))
      ((List.mem_erase_of_ne hcB).mpr hacc)

theorem foldl_disconnect_active (l : List Nat) (s : WSState) :
    (l.foldl disconnect s).active_connections =
      l.foldl (fun a c => a.erase c) s.active_connections := by
  induction l generalizing s with
  | nil => rfl
  | cons c l ih =>
    rw [List.foldl_cons, List.foldl_cons, ih, disconnect_active]

theorem foldl_disconnect_regInv (l : List Nat) (s : WSState) (h : RegInv s) :
    RegInv (l.foldl disconnect s) := by
  induction l generalizing s with
  | nil => exact h
  | cons c l ih =>
    rw [List.foldl_cons]
    exact ih _ (disconnect_regInv s c h)

theorem foldl_disconnect_meta (l : List Nat) (s : WSState)
    (hM : (s.connection_metadata.map Prod.fst).Nodup) (c : Nat) :
    dictLookup (l.foldl disconnect s).connection_metadata c =
      if c ∈ l then none else dictLookup s.connection_metadata c := by
  induction l generalizing s with
  | nil => simp
  | cons a l ih =>
    rw [List.foldl_cons, ih (disconnect s a) (disconnect_metaNodup s a hM),
      disconnect_metadata s a c hM]
    by_cases hcl : c ∈ l
    · simp [hcl]
    · by_cases hca : c = a
      · simp [hcl, hca]
      · simp [hcl, hca, List.mem_cons]

theorem removeConn_mem_cases (chans : Finset String) (ws : Nat)
    (d : List (String × Finset Nat)) (e' : String × Finset Nat)
    (he' : e' ∈ removeConnFromChannels chans ws d) :
    ∃ e ∈ d, (e.1 ∈ chans ∧ e' = (e.1, e.2.erase ws)) ∨ (e.1 ∉ chans ∧ e' = e) := by
  rw [removeConnFromChannels, List.mem_filter] at he'
  rcases List.mem_map.mp he'.1 with ⟨e, he, heq⟩
  refine ⟨e, he, ?_⟩
  by_cases hec : e.1 ∈ chans
  · rw [if_pos hec] at heq
    exact Or.inl ⟨hec, heq.symm⟩
  · rw [if_neg hec] at heq
    exact Or.inr ⟨hec, heq.symm⟩

/-- After `disconnect s c` from a well-formed state, `c` is in no channel's
subscriber set (it is removed from exactly the channels its metadata lists,
and by consistency those are all the channels it was in). -/
theorem disconnect_not_in_channels (s : WSState) (c : Nat) (h : RegInv s) :
    ∀ e ∈ (disconnect s c).subscriptions, c ∉ e.2 := by
  intro e' he'
  cases hm : dictLookup s.connection_metadata c with
  | none =>
    rw [disconnect_subs_none s c hm] at he'
    intro hmem
    have hch : inChannelB s e'.1 c = true := by
      rw [inChannelB_iff]
      exact ⟨e'.2, dictLookup_of_mem_nodup _ _ h.subsNodup he', hmem⟩
    have hms := (h.consistent c e'.1).mp hch
    rw [inMetaSubsB_iff] at hms
    rcases hms with ⟨m, hm2, _⟩
    rw [hm] at hm2
    exact Option.noConfusion hm2
  | some m =>
    rw [disconnect_subs_some s c m hm] at he'
    rcases removeConn_mem_cases m.subs c s.subscriptions e' he' with ⟨e, he, hcase⟩
    rcases hcase with ⟨_, heq⟩ | ⟨hnc, heq⟩
    · rw [heq]
      exact Finset.not_mem_erase c _
    · rw [heq]
      intro hmem
      have hch : inChannelB s e.1 c = true := by
        rw [inChannelB_iff]
        exact ⟨e.2, dictLookup_of_mem_nodup _ _ h.subsNodup he, hmem⟩
      have hms := (h.consistent c e.1).mp hch
      rw [inMetaSubsB_iff] at hms
      rcases hms with ⟨m', hm2, hmem2⟩
      rw [hm] at hm2
      injection hm2 with hm2
      subst hm2
      exact hnc hmem2

/-- `disconnect` never adds a connection to any channel's subscriber set. -/
theorem disconnect_channels_mono (s : WSState) (a c : Nat)
    (h : ∀ e ∈ s.subscriptions, c ∉ e.2) :
    ∀ e ∈ (disconnect s a).subscriptions, c ∉ e.2 := by
  intro e' he'
  cases hm : dictLookup s.connection_metadata a with
  | none =>
    rw [disconnect_subs_none s a hm] at he'
    exact h e' he'
  | some m =>
    rw [disconnect_subs_some s a m hm] at he'
    rcases removeConn_subset m.subs a s.subscriptions e' he' with ⟨e, he, hsub⟩
    intro hmem
    exact h e he (hsub hmem)

theorem foldl_disconnect_channels_mono (l : List Nat) (s : WSState) (c : Nat)
    (h : ∀ e ∈ s.subscriptions, c ∉ e.2) :
    ∀ e ∈ (l.foldl disconnect s).subscriptions, c ∉ e.2 := by
  induction l generalizing s with
  | nil => exact h
  | cons a l ih =>
    rw [List.foldl_cons]
    exact ih _ (disconnect_channels_mono s a c h)

theorem foldl_disconnect_not_in_channels (l : List Nat) (s : WSState) (c : Nat)
    (h : RegInv s) (hc : c ∈ l) :
    ∀ e ∈ (l.foldl disconnect s).subscriptions, c ∉ e.2 := by
  induction l generalizing s with
  | nil => simp at hc
  | cons a l ih =>
    rw [List.foldl_cons]
    by_cases hca : a = c
    · subst hca
      exact foldl_disconnect_channels_mono l _ a
        (disconnect_not_in_channels s a h)
    · rcases List.mem_cons.mp hc with h1 | h1
      · exact absurd h1.symm hca
      · exact ih _ (disconnect_regInv s a h) h1

/-- Disconnecting one connection keeps every *other* connection's channel
memberships intact. -/
theorem disconnect_member_preserved (s : WSState) (a c : Nat) (ch : String)
    (set : Finset Nat) (hS : (s.subscriptions.map Prod.fst).Nodup) (hca : c ≠ a)
    (hl : dictLookup s.subscriptions ch = some set) (hm : c ∈ set) :
    ∃ set', dictLookup (disconnect s a).subscriptions ch = some set' ∧ c ∈ set' := by
  cases hmo : dictLookup s.connection_metadata a with
  | none =>
    rw [disconnect_subs_none s a hmo]
    exact ⟨set, hl, hm⟩
  | some m =>
    rw [disconnect_subs_some s a m hmo]
    by_cases hch : ch ∈ m.subs
    · have hce : c ∈ set.erase a := Finset.mem_erase.mpr ⟨hca, hm⟩
      have hne : set.erase a ≠ ∅ := fun habs => by
        rw [habs] at hce
        exact Finset.not_mem_empty c hce
      rw [removeConn_lookup_mem _ _ _ _ _ hS hl hch, if_neg hne]
      exact ⟨set.erase a, rfl, hce⟩
    · rw [removeConn_lookup_not_mem _ _ _ _ _ hS hl hch]
      exact ⟨set, rfl, hm⟩

theorem foldl_disconnect_member_preserved (l : List Nat) (s : WSState) (c : Nat)
    (ch : String) (set : Finset Nat) (h : RegInv s) (hcl : c ∉ l)
    (hl : dictLookup s.subscriptions ch = some set) (hm : c ∈ set) :
    ∃ set', dictLookup (l.foldl disconnect s).subscriptions ch = some set' ∧
      c ∈ set' := by
  induction l generalizing s set with
  | nil => exact ⟨set, hl, hm⟩
  | cons a l ih =>
    rw [List.foldl_cons]
    have hca : c ≠ a := fun habs => hcl (habs ▸ List.mem_cons_self _ _)
    rcases disconnect_member_preserved s a c ch set h.subsNodup hca hl hm with
      ⟨set', hl', hm'⟩
    exact ih _ set' (disconnect_regInv s a h)
      (fun habs => hcl (List.mem_cons_of_mem _ habs)) hl' hm'

theorem foldl_disconnect_noEmpty (l : List Nat) (s : WSState)
    (h : noEmptyChannels s) : noEmptyChannels (l.foldl disconnect s) := by
  induction l generalizing s with
  | nil => exact h
  | cons a l ih =>
    rw [List.foldl_cons]
    exact ih _ (disconnect_noEmpty s a h)

/-! ## Per-operation no-empty-channel preservation -/

theorem subscribeState_noEmpty (s : WSState) (ws : Nat) (ch : String)
    (h : noEmptyChannels s) : noEmptyChannels (subscribeState s ws ch) := by
  intro e he
  rw [subscribeState_subs] at he
  rcases mem_dictInsert _ _ _ _ he with h1 | h1
  · exact h e h1
  · rw [h1]
    exact Finset.insert_ne_empty _ _

theorem unsubscribeState_noEmpty (s : WSState) (ws : Nat) (ch : String)
    (h : noEmptyChannels s) : noEmptyChannels (unsubscribeState s ws ch) := by
  intro e he
  cases hl : dictLookup s.subscriptions ch with
  | none =>
    rw [unsubscribeState_subs_none s ws ch hl] at he
    exact h e he
  | some set =>
    by_cases hem : set.erase ws = ∅
    · rw [unsubscribeState_subs_del s ws ch set hl hem] at he
      exact h e (mem_dictDelete _ _ _ he)
    · rw [unsubscribeState_subs_upd s ws ch set hl hem] at he
      rcases mem_dictInsert _ _ _ _ he with h1 | h1
      · exact h e h1
      · rw [h1]
        exact hem

theorem send_personal_noEmpty (fails : Nat → Bool) (s : WSState) (ws : Nat)
    (m : Msg) (h : noEmptyChannels s) :
    noEmptyChannels (send_personal_message fails s ws m).1 := by
  rw [send_personal_message]
  by_cases hf : fails ws
  · simp only [hf, if_true]
    exact disconnect_noEmpty s ws h
  · simp only [hf, if_false]
    exact h

/-! ## The claims -/

/-- C3 (confirmed).  No-empty-channels invariant: from any state with no
empty channel entry, a single `subscribe`, `unsubscribe` or `disconnect`
leaves no channel name mapped to an empty subscriber set — empty entries are
deleted within the same operation. -/
theorem C3_no_empty_channels (fails : Nat → Bool) (s : WSState) (ws : Nat)
    (ch : String) (h : noEmptyChannels s) :
    noEmptyChannels (subscribe fails s ws ch).1 ∧
    noEmptyChannels (unsubscribe fails s ws ch).1 ∧
    noEmptyChannels (disconnect s ws) :=
  ⟨send_personal_noEmpty fails (subscribeState s ws ch) ws _
      (subscribeState_noEmpty s ws ch h),
    send_personal_noEmpty fails (unsubscribeState s ws ch) ws _
      (unsubscribeState_noEmpty s ws ch h),
    disconnect_noEmpty s ws h⟩

/-- Witness for C3 at a concrete input. -/
theorem C3_witness :
    noEmptyChannels (subscribe (fun _ => false) initialState 0 "a").1 ∧
    noEmptyChannels (unsubscribe (fun _ => false) initialState 0 "a").1 ∧
    noEmptyChannels (disconnect initialState 0) :=
  C3_no_empty_channels (fun _ => false) initialState 0 "a"
    (by intro e he; simp [initialState] at he)

theorem wsstate_ext (s t : WSState)
    (h1 : s.active_connections = t.active_connections)
    (h2 : s.subscriptions = t.subscriptions)
    (h3 : s.connection_metadata = t.connection_metadata) : s = t := by
  cases s
  cases t
  simp_all

/-- C2 counterexample: `subscribe` on a connection that was never passed to
`connect` is *not* a no-op — starting from the empty registry it adds the
connection to the channel's subscriber set. -/
theorem C2_counterexample :
    (subscribe (fun _ => false) initialState 0 "a").1 ≠ initialState := by
  decide

/-- C2 (amended).  `unsubscribe` and `disconnect` on an unregistered
connection (not in the live list, no metadata record, in no channel set,
state free of empty channel entries) leave the registry state unchanged and
raise no error; `subscribe` on such a connection, however, skips only the
metadata update and still inserts the connection into the channel's
subscriber set (live list and metadata map stay unchanged). -/
theorem C2_unregistered (fails : Nat → Bool) (s : WSState) (ws : Nat)
    (ch : String)
    (hA : ws ∉ s.active_connections)
    (hm : dictLookup s.connection_metadata ws = none)
    (hch : ∀ ch' set, dictLookup s.subscriptions ch' = some set → ws ∉ set)
    (hne : noEmptyChannels s) :
    disconnect s ws = s ∧
    (unsubscribe fails s ws ch).1 = s ∧
    ((subscribe fails s ws ch).1.active_connections = s.active_connections ∧
      (subscribe fails s ws ch).1.connection_metadata = s.connection_metadata ∧
      dictLookup (subscribe fails s ws ch).1.subscriptions ch =
        some (insert ws ((dictLookup s.subscriptions ch).getD ∅))) := by
  have hdisc : disconnect s ws = s := disconnect_eq_self s ws hA hm
  refine ⟨hdisc, ?_, ?_⟩
  · have hus : unsubscribeState s ws ch = s := by
      cases hl : dictLookup s.subscriptions ch with
      | none =>
        exact wsstate_ext _ _ (unsubscribeState_active s ws ch)
          (unsubscribeState_subs_none s ws ch hl)
          (unsubscribeState_meta_none s ws ch hm)
      | some set =>
        have hws : ws ∉ set := hch ch set hl
        have hset : set.erase ws = set := Finset.erase_eq_of_not_mem hws
        have hne2 : set ≠ ∅ := hne (ch, set) (dictLookup_mem _ _ _ hl)
        have hcond : ¬(set.erase ws = ∅) := by
          rw [hset]
          exact hne2
        have h1 := unsubscribeState_subs_upd s ws ch set hl hcond
        rw [hset, dictInsert_eq_self _ _ _ hl] at h1
        exact wsstate_ext _ _ (unsubscribeState_active s ws ch) h1
          (unsubscribeState_meta_none s ws ch hm)
    rw [unsubscribe, hus, send_personal_message]
    by_cases hf : fails ws
    · simp only [hf, if_true]
      exact hdisc
    · simp [hf]
  · have hmeta1 : (subscribeState s ws ch).connection_metadata
        = s.connection_metadata := subscribeState_meta_none s ws ch hm
    have hsub1 : dictLookup (subscribeState s ws ch).subscriptions ch =
        some (insert ws ((dictLookup s.subscriptions ch).getD ∅)) := by
      rw [subscribeState_subs]
      exact dictLookup_insert_self _ _ _
    rw [subscribe, send_personal_message]
    by_cases hf : fails ws
    · simp only [hf, if_true]
      have hm1 : dictLookup (subscribeState s ws ch).connection_metadata ws = none := by
        rw [hmeta1]
        exact hm
      refine ⟨?_, ?_, ?_⟩
      · rw [disconnect_active, subscribeState_active, List.erase_of_not_mem hA]
      · rw [disconnect_meta_none _ _ hm1, hmeta1]
      · rw [disconnect_subs_none _ _ hm1]
        exact hsub1
    · simp only [hf, if_false]
      exact ⟨subscribeState_active s ws ch, hmeta1, hsub1⟩

/-- Witness for C2 at a concrete input. -/
theorem C2_witness :
    disconnect initialState 0 = initialState ∧
    (unsubscribe (fun _ => false) initialState 0 "a").1 = initialState ∧
    ((subscribe (fun _ => false) initialState 0 "a").1.active_connections =
        initialState.active_connections ∧
      (subscribe (fun _ => false) initialState 0 "a").1.connection_metadata =
        initialState.connection_metadata ∧
      dictLookup (subscribe (fun _ => false) initialState 0 "a").1.subscriptions "a" =
        some (insert 0 ((dictLookup initialState.subscriptions "a").getD ∅))) :=
  C2_unregistered (fun _ => false) initialState 0 "a" (by decide) (by decide)
    (by intro ch' set h; simp [initialState, dictLookup] at h)
    (by intro e he; simp [initialState] at he)

/-- C4 counterexample: `disconnect` is not idempotent on every registry
state.  After `connect` is called twice on the same handle (the live list
then holds it twice), a second `disconnect` removes a further occurrence,
so the end states of one and two calls differ. -/
theorem C4_counterexample :
    disconnect (disconnect
      (connect (fun _ => false)
        (connect (fun _ => false) initialState 0 0).1 0 0).1 0) 0 ≠
    disconnect
      (connect (fun _ => false)
        (connect (fun _ => false) initialState 0 0).1 0 0).1 0 := by
  decide

/-- C4 (amended).  `disconnect` is idempotent on every registry state in
which the connection occurs at most once in the live list and at most once
in the metadata map (which is every state produced by the
at-most-once-`connect` discipline); the second call raises no error and
changes nothing. -/
theorem C4_disconnect_idempotent (s : WSState) (ws : Nat)
    (hA : List.count ws s.active_connections ≤ 1)
    (hM : List.count ws (s.connection_metadata.map Prod.fst) ≤ 1) :
    disconnect (disconnect s ws) ws = disconnect s ws := by
  apply disconnect_eq_self
  · rw [disconnect_active]
    intro hmem
    have hc := List.count_pos_iff.mpr hmem
    rw [List.count_erase_self] at hc
    omega
  · cases hm : dictLookup s.connection_metadata ws with
    | none =>
      rw [disconnect_meta_none s ws hm]
      exact hm
    | some m =>
      rw [disconnect_meta_some s ws m hm]
      exact dictLookup_delete_self_of_count _ _ hM

/-- Witness for C4 at a concrete input. -/
theorem C4_witness :
    disconnect (disconnect (connect (fun _ => false) initialState 0 0).1 0) 0 =
      disconnect (connect (fun _ => false) initialState 0 0).1 0 :=
  C4_disconnect_idempotent (connect (fun _ => false) initialState 0 0).1 0
    (by decide) (by decide)

/-- C5 (confirmed).  Channel fan-out: if the channel has no entry,
`broadcast_to_channel` is a silent no-op (no sends, no state change); if it
has an entry then, with every transport send succeeding, the serialized
payload goes to exactly the members of that channel's subscriber set and to
no other connection, and the state is unchanged. -/
theorem C5_channel_fanout (fails : Nat → Bool) (s : WSState) (ch p : String) :
    (dictLookup s.subscriptions ch = none →
      broadcast_to_channel fails s ch p = (s, [])) ∧
    (∀ set, dictLookup s.subscriptions ch = some set →
      (∀ c, (c, Msg.payload p) ∈ (broadcast_to_channel (fun _ => false) s ch p).2
          ↔ c ∈ set) ∧
      (broadcast_to_channel (fun _ => false) s ch p).1 = s) := by
  constructor
  · intro h
    simp [broadcast_to_channel, h]
  · intro set hset
    constructor
    · intro c
      simp [broadcast_to_channel, hset, List.mem_map, Finset.mem_sort]
    · simp [broadcast_to_channel, hset]

/-- Witness for C5 at concrete inputs: the empty registry has no channel
entry for "b"; in a registry where channel "a" holds exactly connections 0
and 1, connection 0 receives and connection 2 does not. -/
theorem C5_witness :
    broadcast_to_channel (fun _ => false) initialState "b" "x" = (initialState, []) ∧
    ((0, Msg.payload "x") ∈ (broadcast_to_channel (fun _ => false)
        ⟨[0, 1], [("a", {0, 1})], []⟩ "a" "x").2 ↔ 0 ∈ ({0, 1} : Finset Nat)) ∧
    ((2, Msg.payload "x") ∈ (broadcast_to_channel (fun _ => false)
        ⟨[0, 1], [("a", {0, 1})], []⟩ "a" "x").2 ↔ 2 ∈ ({0, 1} : Finset Nat)) :=
  ⟨(C5_channel_fanout (fun _ => false) initialState "b" "x").1 (by decide),
    ((C5_channel_fanout (fun _ => false) ⟨[0, 1], [("a", {0, 1})], []⟩ "a" "x").2
      {0, 1} (by decide)).1 0,
    ((C5_channel_fanout (fun _ => false) ⟨[0, 1], [("a", {0, 1})], []⟩ "a" "x").2
      {0, 1} (by decide)).1 2⟩

/-- C6 (confirmed).  Partial-failure isolation in `broadcast`: sends are
attempted independently over the pre-iteration live list (the sent list is
exactly the non-failing live connections, in order); a connection whose send
succeeds receives the payload even though another's send fails, and every
failed connection is disconnected only after the pass, ending absent from
the live list. -/
theorem C6_broadcast_partial_failure (fails : Nat → Bool) (s : WSState)
    (p : String) (A B : Nat)
    (hA : A ∈ s.active_connections) (hB : B ∈ s.active_connections)
    (hfA : fails A = false) (hfB : fails B = true) :
    (A, Msg.payload p) ∈ (broadcast fails s p).2 ∧
    B ∉ (broadcast fails s p).1.active_connections ∧
    (broadcast fails s p).2 =
      (s.active_connections.filter (fun c => !fails c)).map
        (fun c => (c, Msg.payload p)) := by
  have hne : s.active_connections ≠ [] := List.ne_nil_of_mem hA
  refine ⟨?_, ?_, ?_⟩
  · simp only [broadcast, if_neg hne]
    refine List.mem_map.mpr ⟨A, ?_, rfl⟩
    refine List.mem_filter.mpr ⟨hA, ?_⟩
    rw [hfA]
    rfl
  · simp only [broadcast, if_neg hne]
    rw [foldl_disconnect_active]
    apply foldl_erase_not_mem
    rw [count_filter_of_pred (fun c => fails c) B hfB]
  · simp only [broadcast, if_neg hne]

/-- Witness for C6 at a concrete input: connections 0 and 1 live, sending to
1 fails. -/
theorem C6_witness :
    (0, Msg.payload "x") ∈
      (broadcast (fun c => c == 1) ⟨[0, 1], [], []⟩ "x").2 ∧
    1 ∉ (broadcast (fun c => c == 1) ⟨[0, 1], [], []⟩ "x").1.active_connections ∧
    (broadcast (fun c => c == 1) ⟨[0, 1], [], []⟩ "x").2 =
      (([0, 1] : List Nat).filter (fun c => !(c == 1))).map
        (fun c => (c, Msg.payload "x")) :=
  C6_broadcast_partial_failure (fun c => c == 1) ⟨[0, 1], [], []⟩ "x" 0 1
    (by decide) (by decide) (by decide) (by decide)

/-- C8 (confirmed).  `get_connection_stats` is a pure read-only snapshot:
the registry state is returned unchanged, the total is the live-list
length, each channel maps to the size of its subscriber set, and the
details list is the per-connection metadata (connect time, subscription
set, last-liveness time) in metadata order. -/
theorem C8_stats_snapshot (s : WSState) :
    (get_connection_stats s).1 = s ∧
    (get_connection_stats s).2.total_connections = s.active_connections.length ∧
    (∀ ch, dictLookup (get_connection_stats s).2.channels ch =
      Option.map Finset.card (dictLookup s.subscriptions ch)) ∧
    (get_connection_stats s).2.connection_details =
      s.connection_metadata.map
        (fun e => ⟨e.2.connected_at, e.2.subs, e.2.last_ping⟩) := by
  refine ⟨rfl, rfl, ?_, rfl⟩
  intro ch
  exact dictLookup_map_val s.subscriptions Finset.card ch

/-- C9 (confirmed, implicit claim).  `connect` is unsafe to call twice on
the same handle: after two `connect`s on a fresh handle the live list holds
it twice while a single (overwritten) metadata record exists; one
`disconnect` then removes only one list occurrence, leaving the handle
still live (hence still counted by `get_connection_stats`) with no metadata
record. -/
theorem C9_double_connect (s s2 : WSState) (ws now1 now2 : Nat)
    (fails : Nat → Bool)
    (hA : ws ∉ s.active_connections)
    (hm : dictLookup s.connection_metadata ws = none)
    (hf : fails ws = false)
    (hs2 : s2 = (connect fails (connect fails s ws now1).1 ws now2).1) :
    List.count ws s2.active_connections = 2 ∧
    List.count ws (s2.connection_metadata.map Prod.fst) = 1 ∧
    dictLookup s2.connection_metadata ws = some ⟨now2, ∅, now2⟩ ∧
    List.count ws (disconnect s2 ws).active_connections = 1 ∧
    ws ∈ (disconnect s2 ws).active_connections ∧
    dictLookup (disconnect s2 ws).connection_metadata ws = none ∧
    1 ≤ (get_connection_stats (disconnect s2 ws)).2.total_connections := by
  have hc1 : (connect fails s ws now1).1 = connectState s ws now1 := by
    rw [connect, send_personal_message]
    simp [hf]
  have hc2 : s2 = connectState (connectState s ws now1) ws now2 := by
    rw [hs2, hc1, connect, send_personal_message]
    simp [hf]
  have hmeta2 : s2.connection_metadata =
      dictInsert s.connection_metadata ws ⟨now2, ∅, now2⟩ := by
    rw [hc2, connectState_meta, connectState_meta, dictInsert_dictInsert]
  have hact2 : s2.active_connections =
      s.active_connections ++ [ws] ++ [ws] := by
    rw [hc2, connectState_active, connectState_active]
  have hcount0 : List.count ws s.active_connections = 0 :=
    List.count_eq_zero.mpr hA
  have hcount2 : List.count ws s2.active_connections = 2 := by
    rw [hact2]
    simp [List.count_append, hcount0]
  have hkeys : List.count ws (s2.connection_metadata.map Prod.fst) = 1 := by
    rw [hmeta2, dictInsert_keys,
      if_neg ((dictLookup_eq_none_iff _ _).mp hm)]
    simp [List.count_append, List.count_eq_zero.mpr
      ((dictLookup_eq_none_iff _ _).mp hm)]
  have hlook2 : dictLookup s2.connection_metadata ws = some ⟨now2, ∅, now2⟩ := by
    rw [hmeta2]
    exact dictLookup_insert_self _ _ _
  have hcount1 : List.count ws (disconnect s2 ws).active_connections = 1 := by
    rw [disconnect_active, List.count_erase_self, hcount2]
  have hmem1 : ws ∈ (disconnect s2 ws).active_connections :=
    List.count_pos_iff.mp (by rw [hcount1]; exact Nat.one_pos)
  refine ⟨hcount2, hkeys, hlook2, hcount1, hmem1, ?_, ?_⟩
  · rw [disconnect_meta_some s2 ws _ hlook2]
    apply dictLookup_delete_self_of_count
    rw [hkeys]
  · have hne : (disconnect s2 ws).active_connections ≠ [] :=
      List.ne_nil_of_mem hmem1
    have hpos : 0 < (disconnect s2 ws).active_connections.length :=
      List.length_pos.mpr hne
    exact hpos

/-- Witness for C9 at a concrete input. -/
theorem C9_witness :
    List.count 0 ((connect (fun _ => false)
        (connect (fun _ => false) initialState 0 3).1 0 7).1).active_connections = 2 ∧
    List.count 0 (((connect (fun _ => false)
        (connect (fun _ => false) initialState 0 3).1 0 7).1).connection_metadata.map
          Prod.fst) = 1 ∧
    dictLookup ((connect (fun _ => false)
        (connect (fun _ => false) initialState 0 3).1 0 7).1).connection_metadata 0 =
      some ⟨7, ∅, 7⟩ ∧
    List.count 0 (disconnect (connect (fun _ => false)
        (connect (fun _ => false) initialState 0 3).1 0 7).1 0).active_connections = 1 ∧
    0 ∈ (disconnect (connect (fun _ => false)
        (connect (fun _ => false) initialState 0 3).1 0 7).1 0).active_connections ∧
    dictLookup (disconnect (connect (fun _ => false)
        (connect (fun _ => false) initialState 0 3).1 0 7).1 0).connection_metadata 0 =
      none ∧
    1 ≤ (get_connection_stats (disconnect (connect (fun _ => false)
        (connect (fun _ => false) initialState 0 3).1 0 7).1 0)).2.total_connections :=
  C9_double_connect initialState _ 0 3 7 (fun _ => false)
    (by decide) (by decide) (by decide) rfl

/-- C10 (confirmed, implicit claim).  If the welcome send inside `connect`
fails at the transport for a fresh handle, the error is absorbed and the
connection is immediately disconnected: `connect` returns normally with no
message delivered, the registry state is exactly as before, and the
connection ends absent from the live list, every channel's subscriber set,
and the metadata map. -/
theorem C10_welcome_failure (s : WSState) (ws now : Nat) (fails : Nat → Bool)
    (hA : ws ∉ s.active_connections)
    (hm : dictLookup s.connection_metadata ws = none)
    (hch : ∀ e ∈ s.subscriptions, ws ∉ e.2)
    (hf : fails ws = true) :
    connect fails s ws now = (s, []) ∧
    ws ∉ (connect fails s ws now).1.active_connections ∧
    dictLookup (connect fails s ws now).1.connection_metadata ws = none ∧
    ∀ e ∈ (connect fails s ws now).1.subscriptions, ws ∉ e.2 := by
  have hmain : connect fails s ws now = (s, []) := by
    rw [connect, send_personal_message]
    simp only [hf, if_true]
    have hlook : dictLookup (connectState s ws now).connection_metadata ws =
        some ⟨now, ∅, now⟩ := by
      rw [connectState_meta]
      exact dictLookup_insert_self _ _ _
    have hstate : disconnect (connectState s ws now) ws = s := by
      apply wsstate_ext
      · rw [disconnect_active, connectState_active,
          List.erase_append_right _ hA]
        simp
      · rw [disconnect_subs_some _ _ _ hlook, connectState_subs]
        exact removeConn_empty ws s.subscriptions
      · rw [disconnect_meta_some _ _ _ hlook, connectState_meta]
        exact dictDelete_insert_fresh _ _ _ hm
    rw [hstate]
  refine ⟨hmain, ?_, ?_, ?_⟩
  · rw [hmain]
    exact hA
  · rw [hmain]
    exact hm
  · rw [hmain]
    exact hch

/-- Witness for C10 at a concrete input. -/
theorem C10_witness :
    connect (fun _ => true) initialState 0 4 = (initialState, []) ∧
    0 ∉ (connect (fun _ => true) initialState 0 4).1.active_connections ∧
    dictLookup (connect (fun _ => true) initialState 0 4).1.connection_metadata 0 =
      none :=
  (fun h => ⟨h.1, h.2.1, h.2.2.1⟩)
    (C10_welcome_failure initialState 0 4 (fun _ => true) (by decide) (by decide)
      (by intro e he; simp [initialState] at he) (by decide))

/-- C1 counterexample: one operation from the empty registry —
`subscribe(0, "a")` with no prior `connect` — leaves connection 0 in
channel "a"'s subscriber set while "a" is in no subscription set of 0
(0 has no metadata record), so the bidirectional-consistency iff fails
after this sequence. -/
theorem C1_counterexample :
    ¬ Consistent (subscribe (fun _ => false) initialState 0 "a").1 := by
  intro h
  have h2 := (h 0 "a").mp (by decide)
  exact absurd h2 (by decide)

/-- C1 (amended).  Bidirectional consistency — `c` is in channel `ch`'s
subscriber set iff `ch` is in `c`'s own subscription set — holds after any
sequence of connect/disconnect/subscribe/unsubscribe from the empty
registry *in which `connect` is only applied to handles with no metadata
record and `subscribe` only to handles with one* (`Reach`); the unrestricted
claim fails because `subscribe` before `connect` updates only the channel
side (see the counterexample). -/
theorem C1_bidirectional_consistency (s : WSState) (h : Reach s) :
    ∀ c ch, inChannelB s ch c = true ↔ inMetaSubsB s c ch = true :=
  (reach_regInv s h).consistent

/-- Witness for C1 at a concrete reachable state: connection 0 connected at
time 5 and subscribed to "a". -/
theorem C1_witness :
    inChannelB (subscribe (fun _ => false)
        (connect (fun _ => false) initialState 0 5).1 0 "a").1 "a" 0 = true ↔
      inMetaSubsB (subscribe (fun _ => false)
        (connect (fun _ => false) initialState 0 5).1 0 "a").1 0 "a" = true :=
  C1_bidirectional_consistency _
    (Reach.subscribe (fun _ => false) _ 0 "a"
      (Reach.connect (fun _ => false) initialState 0 5 Reach.init (by decide))
      (by decide)) 0 "a"

/-- C7 (confirmed).  Staleness eviction: from a well-formed registry state,
`cleanup_stale_connections` fully disconnects every connection whose
last-liveness timestamp is strictly older than the cutoff
`now - max_age_minutes * 60` (its metadata is deleted, it leaves the live
list, and it is in no channel's subscriber set), leaves no orphan empty
channel entries, and leaves connections at or above the cutoff untouched
(same metadata record, still live, channel memberships kept).  The
transport-level `close()` attempted afterwards swallows its errors and has
no registry effect. -/
theorem C7_stale_eviction (s : WSState) (now maxAge : Nat) (h : RegInv s) :
    (∀ c m, dictLookup s.connection_metadata c = some m →
      m.last_ping < now - maxAge * 60 →
      dictLookup (cleanup_stale_connections now maxAge s).connection_metadata c
          = none ∧
        c ∉ (cleanup_stale_connections now maxAge s).active_connections ∧
        ∀ e ∈ (cleanup_stale_connections now maxAge s).subscriptions, c ∉ e.2) ∧
    noEmptyChannels (cleanup_stale_connections now maxAge s) ∧
    (∀ c m, dictLookup s.connection_metadata c = some m →
      ¬(m.last_ping < now - maxAge * 60) →
      dictLookup (cleanup_stale_connections now maxAge s).connection_metadata c
          = some m ∧
        (c ∈ s.active_connections →
          c ∈ (cleanup_stale_connections now maxAge s).active_connections) ∧
        ∀ ch set, dictLookup s.subscriptions ch = some set → c ∈ set →
          ∃ set',
            dictLookup (cleanup_stale_connections now maxAge s).subscriptions ch
              = some set' ∧ c ∈ set') := by
  have hcl : cleanup_stale_connections now maxAge s =
      ((s.connection_metadata.filter
        (fun e => e.2.last_ping < now - maxAge * 60)).map Prod.fst).foldl
          disconnect s := rfl
  rw [hcl]
  refine ⟨?_, ?_, ?_⟩
  · intro c m hm hlt
    have hcmem : c ∈ (s.connection_metadata.filter
        (fun e => e.2.last_ping < now - maxAge * 60)).map Prod.fst := by
      rw [mem_dict_filter_keys _ _ _ h.metaNodup]
      exact ⟨m, hm, by simp [hlt]⟩
    refine ⟨?_, ?_, ?_⟩
    · rw [foldl_disconnect_meta _ _ h.metaNodup, if_pos hcmem]
    · rw [foldl_disconnect_active]
      apply foldl_erase_not_mem
      have h1 : List.count c s.active_connections ≤ 1 :=
        List.nodup_iff_count_le_one.mp h.activeNodup c
      have h2 : 1 ≤ List.count c ((s.connection_metadata.filter
          (fun e => e.2.last_ping < now - maxAge * 60)).map Prod.fst) :=
        List.count_pos_iff.mpr hcmem
      omega
    · exact foldl_disconnect_not_in_channels _ _ _ h hcmem
  · exact foldl_disconnect_noEmpty _ _ h.noEmpty
  · intro c m hm hnlt
    have hcnot : c ∉ (s.connection_metadata.filter
        (fun e => e.2.last_ping < now - maxAge * 60)).map Prod.fst := by
      intro habs
      rw [mem_dict_filter_keys _ _ _ h.metaNodup] at habs
      rcases habs with ⟨m', hm', hp⟩
      rw [hm] at hm'
      injection hm' with hm'
      subst hm'
      rw [decide_eq_true_iff] at hp
      exact hnlt hp
    refine ⟨?_, ?_, ?_⟩
    · rw [foldl_disconnect_meta _ _ h.metaNodup, if_neg hcnot]
      exact hm
    · intro hmem
      rw [foldl_disconnect_active]
      exact foldl_erase_mem c _ _ hcnot hmem
    · intro ch set hl hcm
      exact foldl_disconnect_member_preserved _ s c ch set h hcnot hl hcm

/-- Witness for C7 at a concrete reachable state: connection 0 connected at
time 5, subscribed to "a", swept at time 7200 with a 60-minute threshold
(cutoff 3600), hence stale and fully evicted. -/
theorem C7_witness :
    dictLookup (cleanup_stale_connections 7200 60
        (subscribe (fun _ => false)
          (connect (fun _ => false) initialState 0 5).1 0 "a").1).connection_metadata
      0 = none ∧
    0 ∉ (cleanup_stale_connections 7200 60
        (subscribe (fun _ => false)
          (connect (fun _ => false) initialState 0 5).1 0 "a").1).active_connections ∧
    noEmptyChannels (cleanup_stale_connections 7200 60
        (subscribe (fun _ => false)
          (connect (fun _ => false) initialState 0 5).1 0 "a").1) :=
  (fun hh => ⟨(hh.1 0 ⟨5, insert "a" ∅, 5⟩ (by decide) (by decide)).1,
      (hh.1 0 ⟨5, insert "a" ∅, 5⟩ (by decide) (by decide)).2.1, hh.2.1⟩)
    (C7_stale_eviction _ 7200 60
      (reach_regInv _
        (Reach.subscribe (fun _ => false) _ 0 "a"
          (Reach.connect (fun _ => false) initialState 0 5 Reach.init (by decide))
          (by decide))))
